import Mathlib

/-
Verification of the harmony-cli tool-execution subsystem.

Shallow embedding of the repository's Python sources:
  * src/tools.py                    (strict patch engine, cache pagination)
  * src/src/tools.py                (forgiving patch engine with relaxed hunk retry)
  * src/src/harmony_cli/tools.py    (display truncation, dict-envelope ToolExecutor)

Conventions used throughout:
  * Python strings are Lean `String`s; `str.splitlines` is `pySplitlines`
    (covering the terminators \n, \r\n, \r that occur in this code base).
  * Python lists are Lean `List`s; slices `xs[a:b]` are `(xs.drop a).take (b - a)`.
  * Python ints that may be negative are `Int`; values known non-negative are `Nat`.
  * Python exceptions are modelled with `Except`; a function that cannot raise
    is total.
  * The file system is the explicit `FS` state defined below; we model the
    POSIX branch of the code (`os.name != "nt"`), with no symbolic links.
-/

/-- Single-quote character (written via its code point to keep the file free of
    quote-escapes); used when reproducing the source's message strings. -/
def squo : String := String.singleton (Char.ofNat 39)

/-- Backtick character, via its code point. -/
def btick : Char := Char.ofNat 96

/-- Helper: wrap a string in single quotes, as Python's f"'{x}'" does. -/
def quoted (s : String) : String := squo ++ s ++ squo

/-- Worker for `pySplitlines`: splits a character list at \n, \r\n, \r. -/
def splitlinesAux : List Char → List Char → List (List Char)
  | [], [] => []
  | [], acc => [acc.reverse]
  | '\r' :: '\n' :: rest, acc => acc.reverse :: splitlinesAux rest []
  | '\n' :: rest, acc => acc.reverse :: splitlinesAux rest []
  | '\r' :: rest, acc => acc.reverse :: splitlinesAux rest []
  | c :: rest, acc => splitlinesAux rest (c :: acc)

/-- Python `str.splitlines()`, restricted to the line terminators \n, \r\n, \r
    (the only ones produced or consumed by this code base). -/
def pySplitlines (s : String) : List String :=
  (splitlinesAux s.data []).map String.mk

/-- Drop trailing characters satisfying `p` (Python `str.rstrip` family). -/
def dropTrailing (p : Char → Bool) (s : String) : String :=
  String.mk (s.data.reverse.dropWhile p).reverse

/-- Python `line.rstrip("\n")`. -/
def pyRstripNl (s : String) : String := dropTrailing (fun c => c = '\n') s

/-- Python `s.rstrip()` (trailing-whitespace removal; ASCII whitespace, which
    is all that occurs in this code base). -/
def pyRstrip (s : String) : String := dropTrailing Char.isWhitespace s

/-- Python `"\n".join(lines)`. -/
def joinNl (lines : List String) : String := String.intercalate "\n" lines

/-
Character-list implementations of the string operations the sources use.
(The corresponding `String` library functions work on UTF-8 byte positions;
these list-based versions have the same meaning on every string and match
Python's per-character semantics directly.)
-/

/-- Python `s.startswith(pre)`. -/
def pyStartsWith (s pre : String) : Bool := pre.data.isPrefixOf s.data

/-- Python `s.endswith(suf)`. -/
def pyEndsWith (s suf : String) : Bool := suf.data.isSuffixOf s.data

/-- Python `s.lstrip()`. -/
def pyLstrip (s : String) : String := String.mk (s.data.dropWhile Char.isWhitespace)

/-- Python `s.strip()`. -/
def pyStrip (s : String) : String := pyLstrip (pyRstrip s)

/-- Python `s[n:]` (drop the first `n` characters). -/
def pyDrop (s : String) (n : Nat) : String := String.mk (s.data.drop n)

/-- Python `s[:n]` (keep the first `n` characters). -/
def pyTake (s : String) (n : Nat) : String := String.mk (s.data.take n)

/-- Python `s.lower()` (ASCII; all compared keywords are ASCII). -/
def pyLower (s : String) : String := String.mk (s.data.map Char.toLower)

/-- Worker for `splitOnSlash`. -/
def splitOnSlashAux : List Char → List Char → List (List Char)
  | [], acc => [acc.reverse]
  | c :: rest, acc =>
    if c = '/' then acc.reverse :: splitOnSlashAux rest []
    else splitOnSlashAux rest (c :: acc)

/-- Python `s.split("/")`. -/
def splitOnSlash (s : String) : List String := (splitOnSlashAux s.data []).map String.mk

deriving instance DecidableEq for Except

/-
difflib embedding.

`_diff_and_stats` in src/tools.py (and identically in src/src/tools.py and
src/src/harmony_cli/tools.py) calls Python's `difflib.unified_diff` with
`lineterm=""`, `n=3` and no junk predicate.  The functions below are a faithful
translation of CPython's `difflib.SequenceMatcher` (isjunk=None) and
`difflib.unified_diff` for that calling convention.
-/

/-- difflib `b2j` raw entry: the ascending list of indices of `x` in `b`. -/
def b2jRaw (b : List String) (x : String) : List Nat :=
  (List.range b.length).filter (fun j => b.getD j "" = x)

/-- difflib `b2j` lookup including the autojunk "popular element" rule:
    for sequences of 200+ elements, elements occurring in more than 1% of
    positions are dropped from the index. -/
def b2jGet (b : List String) (x : String) : List Nat :=
  let idxs := b2jRaw b x
  if 200 ≤ b.length ∧ b.length / 100 + 1 < idxs.length then [] else idxs

/-- Running best match of `find_longest_match`: (besti, bestj, bestsize). -/
structure FlmBest where
  besti : Nat
  bestj : Nat
  bestsize : Nat
deriving DecidableEq

/-- `j2len.get(k, 0)` on an association list. -/
def lookupJ (m : List (Nat × Nat)) (k : Nat) : Nat :=
  match m.find? (fun e => e.1 == k) with
  | some e => e.2
  | none => 0

/-- The dynamic-programming core loop of difflib's `find_longest_match`
    (the nested `for i` / `for j` loops building `newj2len`).  `j2len.get(j-1,0)`
    at `j = 0` reads the absent key `-1`, hence the explicit `j = 0` guard. -/
def flmCore (a b : List String) (alo ahi blo bhi : Nat) : FlmBest :=
  let res := (List.range' alo (ahi - alo)).foldl
    (fun (st : List (Nat × Nat) × FlmBest) i =>
      let js := (b2jGet b (a.getD i "")).filter (fun j => blo ≤ j ∧ j < bhi)
      js.foldl
        (fun (st2 : List (Nat × Nat) × FlmBest) j =>
          let k := (if j = 0 then 0 else lookupJ st.1 (j - 1)) + 1
          let nj := (j, k) :: st2.1
          if st2.2.bestsize < k then (nj, ⟨i + 1 - k, j + 1 - k, k⟩) else (nj, st2.2))
        ([], st.2))
    ([], ⟨alo, blo, 0⟩)
  res.2

/-- The leftward extension loop of `find_longest_match`
    (`while besti > alo and bestj > blo and a[besti-1] == b[bestj-1]`;
    the junk set is empty because `unified_diff` passes `isjunk=None`). -/
def extendLeft (a b : List String) (alo blo : Nat) : Nat → Nat → Nat → FlmBest
  | 0, bj, bs => ⟨0, bj, bs⟩
  | bi + 1, bj, bs =>
    if alo ≤ bi ∧ blo < bj ∧ a.getD bi "" = b.getD (bj - 1) "" then
      extendLeft a b alo blo bi (bj - 1) (bs + 1)
    else ⟨bi + 1, bj, bs⟩

/-- The rightward extension loop of `find_longest_match`.  The first argument
    of the recursion is pure fuel (the loop runs at most `ahi` times since
    `besti + bestsize` strictly grows and stays below `ahi`). -/
def extendRight (a b : List String) (ahi bhi besti bestj : Nat) : Nat → Nat → Nat
  | 0, bs => bs
  | fuel + 1, bs =>
    if besti + bs < ahi ∧ bestj + bs < bhi ∧ a.getD (besti + bs) "" = b.getD (bestj + bs) "" then
      extendRight a b ahi bhi besti bestj fuel (bs + 1)
    else bs

/-- difflib `find_longest_match` over `a[alo:ahi]`, `b[blo:bhi]` with no junk. -/
def findLongestMatch (a b : List String) (alo ahi blo bhi : Nat) : Nat × Nat × Nat :=
  let c := flmCore a b alo ahi blo bhi
  let e := extendLeft a b alo blo c.besti c.bestj c.bestsize
  let size := extendRight a b ahi bhi e.besti e.bestj ahi e.bestsize
  (e.besti, e.bestj, size)

/-- difflib `get_matching_blocks` recursion.  CPython uses an explicit LIFO
    queue and sorts the collected blocks afterwards; since the two subproblems
    cover disjoint, ordered index ranges, an in-order traversal produces the
    same sorted list directly.  The first argument is fuel; the initial supply
    `a.length + b.length + 1` bounds the recursion depth because each
    subproblem is strictly smaller. -/
def mbRec (a b : List String) : Nat → Nat → Nat → Nat → Nat → List (Nat × Nat × Nat)
  | 0, _, _, _, _ => []
  | fuel + 1, alo, ahi, blo, bhi =>
    let m := findLongestMatch a b alo ahi blo bhi
    let i := m.1
    let j := m.2.1
    let k := m.2.2
    if k = 0 then []
    else
      (if alo < i ∧ blo < j then mbRec a b fuel alo i blo j else []) ++
      [(i, j, k)] ++
      (if i + k < ahi ∧ j + k < bhi then mbRec a b fuel (i + k) ahi (j + k) bhi else [])

/-- The adjacent-block merge pass of `get_matching_blocks`
    (`i1 + k1 == i2 and j1 + k1 == j2` folds the blocks together). -/
def mergeBlocks : List (Nat × Nat × Nat) → Nat → Nat → Nat → List (Nat × Nat × Nat)
  | [], i1, j1, k1 => if k1 ≠ 0 then [(i1, j1, k1)] else []
  | (i2, j2, k2) :: rest, i1, j1, k1 =>
    if i1 + k1 = i2 ∧ j1 + k1 = j2 then mergeBlocks rest i1 j1 (k1 + k2)
    else (if k1 ≠ 0 then [(i1, j1, k1)] else []) ++ mergeBlocks rest i2 j2 k2

/-- difflib `get_matching_blocks`, including the `(len(a), len(b), 0)` sentinel. -/
def getMatchingBlocks (a b : List String) : List (Nat × Nat × Nat) :=
  let raw := mbRec a b (a.length + b.length + 1) 0 a.length 0 b.length
  mergeBlocks raw 0 0 0 ++ [(a.length, b.length, 0)]

/-- An opcode, as in difflib: (tag, i1, i2, j1, j2). -/
abbrev Opcode := String × Nat × Nat × Nat × Nat

/-- difflib `get_opcodes` loop over the matching blocks. -/
def opcodesGo : List (Nat × Nat × Nat) → Nat → Nat → List Opcode
  | [], _, _ => []
  | (ai, bj, size) :: rest, i, j =>
    let tagged : List Opcode :=
      if i < ai ∧ j < bj then [("replace", i, ai, j, bj)]
      else if i < ai then [("delete", i, ai, j, bj)]
      else if j < bj then [("insert", i, ai, j, bj)]
      else []
    let eqs : List Opcode := if size ≠ 0 then [("equal", ai, ai + size, bj, bj + size)] else []
    tagged ++ eqs ++ opcodesGo rest (ai + size) (bj + size)

/-- difflib `get_opcodes`. -/
def getOpcodes (a b : List String) : List Opcode := opcodesGo (getMatchingBlocks a b) 0 0

/-- `get_grouped_opcodes`: clip a leading `equal` opcode to `n` context lines. -/
def clipFirst (n : Nat) : List Opcode → List Opcode
  | (t, i1, i2, j1, j2) :: rest =>
    if t = "equal" then (t, max i1 (i2 - n), i2, max j1 (j2 - n), j2) :: rest
    else (t, i1, i2, j1, j2) :: rest
  | [] => []

/-- `get_grouped_opcodes`: clip a trailing `equal` opcode to `n` context lines. -/
def clipLast (n : Nat) (codes : List Opcode) : List Opcode :=
  match codes.reverse with
  | (t, i1, i2, j1, j2) :: restRev =>
    if t = "equal" then ((t, i1, min i2 (i1 + n), j1, min j2 (j1 + n)) :: restRev).reverse
    else codes
  | [] => []

/-- The grouping loop of `get_grouped_opcodes`: a large `equal` range
    (more than `2n` lines) ends the current group and starts the next. -/
def groupLoop (n : Nat) : List Opcode → List Opcode → List (List Opcode)
  | [], grp =>
    if grp ≠ [] ∧ ¬(grp.length = 1 ∧ (grp.headD ("", 0, 0, 0, 0)).1 = "equal") then [grp] else []
  | (t, i1, i2, j1, j2) :: rest, grp =>
    if t = "equal" ∧ n + n < i2 - i1 then
      (grp ++ [(t, i1, min i2 (i1 + n), j1, min j2 (j1 + n))]) ::
        groupLoop n rest [(t, max i1 (i2 - n), i2, max j1 (j2 - n), j2)]
    else groupLoop n rest (grp ++ [(t, i1, i2, j1, j2)])

/-- difflib `get_grouped_opcodes(n)`. -/
def getGroupedOpcodes (a b : List String) (n : Nat) : List (List Opcode) :=
  let codes := getOpcodes a b
  let codes := if codes = [] then [("equal", 0, 1, 0, 1)] else codes
  let codes := clipFirst n codes
  let codes := clipLast n codes
  groupLoop n codes []

/-- difflib `_format_range_unified`. -/
def formatRangeUnified (start stop : Nat) : String :=
  let beginning := start + 1
  let len := stop - start
  if len = 1 then toString beginning
  else toString (if len = 0 then beginning - 1 else beginning) ++ "," ++ toString len

/-- The body lines `unified_diff` emits for one opcode. -/
def opcodeLines (a b : List String) (op : Opcode) : List String :=
  let t := op.1
  let i1 := op.2.1
  let i2 := op.2.2.1
  let j1 := op.2.2.2.1
  let j2 := op.2.2.2.2
  if t = "equal" then ((a.drop i1).take (i2 - i1)).map (fun l => " " ++ l)
  else
    (if t = "replace" ∨ t = "delete" then ((a.drop i1).take (i2 - i1)).map (fun l => "-" ++ l)
     else []) ++
    (if t = "replace" ∨ t = "insert" then ((b.drop j1).take (j2 - j1)).map (fun l => "+" ++ l)
     else [])

/-- The `@@`-header plus body lines `unified_diff` emits for one group. -/
def groupDiffLines (a b : List String) (g : List Opcode) : List String :=
  let first := g.headD ("", 0, 0, 0, 0)
  let last := g.getLastD ("", 0, 0, 0, 0)
  ("@@ -" ++ formatRangeUnified first.2.1 last.2.2.1 ++ " +" ++
     formatRangeUnified first.2.2.2.1 last.2.2.2.2 ++ " @@") ::
    g.foldr (fun op acc => opcodeLines a b op ++ acc) []

/-- difflib `unified_diff(a, b, fromfile, tofile, lineterm="", n=3)` as the list
    of emitted lines (no file dates, matching the call in `_diff_and_stats`). -/
def unifiedDiff (a b : List String) (fromName toName : String) : List String :=
  let groups := getGroupedOpcodes a b 3
  if groups = [] then []
  else ("--- " ++ fromName) :: ("+++ " ++ toName) ::
    groups.foldr (fun g acc => groupDiffLines a b g ++ acc) []

/-- Source constant `MAX_DIFF_LINES_PER_FILE` (src/tools.py). -/
def MAX_DIFF_LINES_PER_FILE : Nat := 300

/-- Result triple of `_diff_and_stats`. -/
structure DiffStats where
  text : String
  added : Nat
  removed : Nat
deriving DecidableEq

/-- The added-line test of the counting loop in `_diff_and_stats`:
    `dl.startswith("+") and not (dl.startswith("+++") or dl.startswith("@@"))`. -/
def isAddedLine (dl : String) : Bool :=
  pyStartsWith dl "+" && !(pyStartsWith dl "+++" || pyStartsWith dl "@@")

/-- The removed-line test of the counting loop in `_diff_and_stats`. -/
def isRemovedLine (dl : String) : Bool :=
  pyStartsWith dl "-" && !(pyStartsWith dl "---" || pyStartsWith dl "@@")

/-- One step of the counting loop in `_diff_and_stats` (`if not dl: continue`,
    then the `startswith` prefix tests, with `elif` for the removed branch). -/
def diffCountStep (ar : Nat × Nat) (dl : String) : Nat × Nat :=
  if dl = "" then ar
  else if isAddedLine dl then (ar.1 + 1, ar.2)
  else if isRemovedLine dl then (ar.1, ar.2 + 1)
  else ar

/-- The full-diff line list `_diff_and_stats` computes before truncation
    (inputs get a trailing newline appended, as in the source). -/
def fullDiffLines (oldLines newLines : List String) (fromName toName : String) : List String :=
  unifiedDiff (oldLines.map (fun l => l ++ "\n")) (newLines.map (fun l => l ++ "\n"))
    fromName toName

/-- `_diff_and_stats(old_lines, new_lines, from_name, to_name)` from
    src/tools.py lines 156-182: build the unified diff, count added/removed by
    prefix tests, then truncate the *text* to `MAX_DIFF_LINES_PER_FILE` lines. -/
def diffAndStats (oldLines newLines : List String) (fromName toName : String) : DiffStats :=
  let diffLines := fullDiffLines oldLines newLines fromName toName
  let counts := diffLines.foldl diffCountStep (0, 0)
  let shown :=
    if MAX_DIFF_LINES_PER_FILE < diffLines.length then
      diffLines.take MAX_DIFF_LINES_PER_FILE ++
        ["... (diff truncated, " ++ toString (diffLines.length - MAX_DIFF_LINES_PER_FILE) ++
          " more lines hidden) ..."]
    else diffLines
  ⟨joinNl shown, counts.1, counts.2⟩

example : pySplitlines "a\nb\n" = ["a", "b"] := by decide
example : pySplitlines "" = [] := by decide
example : pySplitlines "\n" = [""] := by decide

example : unifiedDiff ["a\n", "b\n", "c\n"] ["a\n", "x\n", "c\n"] "f" "t" =
    ["--- f", "+++ t", "@@ -1,3 +1,3 @@", " a\n", "-b\n", "+x\n", " c\n"] := by decide

example : unifiedDiff [] ["++x\n"] "a" "b" =
    ["--- a", "+++ b", "@@ -0,0 +1 @@", "+++x\n"] := by decide

example : unifiedDiff ["a\n"] ["a\n"] "f" "t" = [] := by decide

/-
Markdown helpers (`_normalize_lexer`, `_md_codeblock`) and the display
truncation `_display_truncate` of src/src/harmony_cli/tools.py.
-/

/-- Length of the longest run of backticks in `s`. -/
def backtickRun (s : String) : Nat :=
  (s.data.foldl (fun (st : Nat × Nat) c =>
    if c = btick then (st.1 + 1, max st.2 (st.1 + 1)) else (0, st.2)) (0, 0)).2

/-- `_normalize_lexer(language)`: collapse onto the allowed lexer set. -/
def normalizeLexer (language : String) : String :=
  if language = "" then "text"
  else
    let lang := pyLower (pyStrip language)
    let lang := if lang = "sh" ∨ lang = "shell" then "bash" else lang
    let lang := if lang = "plaintext" ∨ lang = "plain" ∨ lang = "txt" then "text" else lang
    if lang = "python" ∨ lang = "bash" ∨ lang = "diff" ∨ lang = "json" ∨ lang = "text" then lang
    else "text"

/-- `_md_codeblock(body, language)`: fenced code block whose fence is longer
    than any backtick run of three or more in the body. -/
def mdCodeblock (body : String) (language : String) : String :=
  let run := backtickRun body
  let maxTicks := if 3 ≤ run then run else 0
  let fence := String.mk (List.replicate (max 3 (maxTicks + 1)) btick)
  let lang := normalizeLexer language
  let text := if pyEndsWith body "\n" then body else body ++ "\n"
  fence ++ lang ++ "\n" ++ text ++ fence ++ "\n"

/-- The triple-backtick fence marker tested for by `_display_truncate`. -/
def tripleFence : String := "```"

/-- Number of lines whose stripped form starts with a triple backtick
    (the `fence_count` sum in `_display_truncate`). -/
def fenceLineCount (ls : List String) : Nat :=
  (ls.filter (fun L => pyStartsWith (pyStrip L) tripleFence)).length

/-- Source constant `DISPLAY_MAX_LINES` (src/src/harmony_cli/tools.py). -/
def DISPLAY_MAX_LINES : Nat := 25

/-- `_display_truncate(md, max_lines)` from src/src/harmony_cli/tools.py
    lines 160-182: trim to the raw line budget, close an odd number of
    code fences, and append the hidden-line note. -/
def displayTruncate (md : String) (maxLines : Nat) : String :=
  let lines := pySplitlines md
  if lines.length ≤ maxLines then md
  else
    let trimmed := lines.take maxLines
    let shownRaw := trimmed.length
    let trimmed2 := if fenceLineCount trimmed % 2 = 1 then trimmed ++ [tripleFence] else trimmed
    let hiddenRaw := lines.length - shownRaw
    joinNl trimmed2 ++ "\n\n... " ++ toString hiddenRaw ++ " lines hidden ...\n"

/-
PathGuard: `_safe_rel_path` (identical in all three tools.py variants).
We model the POSIX branch (`os.name != "nt"`).  For a path that passes the
guard (relative, no `..` component), `Path(p).resolve().relative_to(Path.cwd())`
is exactly the normalized component list (empty and `.` components removed),
which is what `pathParts` computes; paths are represented by that component
list from here on.
-/

/-- Components of a relative POSIX path as `pathlib.Path(p).parts` yields them
    (splitting on `/`, dropping empty and `.` components, keeping `..`). -/
def pathParts (p : String) : List String :=
  (splitOnSlash p).filter (fun c => ¬(c = "" ∨ c = "."))

/-- The ValueError message raised by `_safe_rel_path`. -/
def pathTraversalMsg : String := "Parent traversal or absolute paths are not allowed."

/-- `_safe_rel_path(p)` from src/tools.py lines 145-153 (POSIX branch):
    reject absolute paths and any parent traversal, otherwise resolve to the
    normalized relative component list. -/
def safeRelPath (p : String) : Except String (List String) :=
  if pyStartsWith p "/" ∨ pyStartsWith p "./../" ∨ pyStartsWith p "../" ∨ ".." ∈ pathParts p then
    Except.error pathTraversalMsg
  else Except.ok (pathParts p)

/-- Path components rendered as `str(Path(...))` renders them. -/
def pathStr (comps : List String) : String :=
  if comps = [] then "." else String.intercalate "/" comps

/-
File-system model.  `files` maps normalized path components to file text;
`dirs` is the set (kept as an insertion-ordered list) of directories that
exist besides the working root.  The working root `[]` always exists and is
a directory.
-/

/-- File-system state: files (path components ↦ text) and directories. -/
structure FS where
  files : List (List String × String)
  dirs : List (List String)
deriving DecidableEq

/-- Content of the regular file at `p`, if any (`Path.read_text`). -/
def getFile (fs : FS) (p : List String) : Option String :=
  (fs.files.find? (fun e => e.1 == p)).map (fun e => e.2)

/-- `Path.is_dir()`: the working root, or a recorded directory. -/
def fsIsDir (fs : FS) (p : List String) : Bool := p == [] || fs.dirs.contains p

/-- `Path.exists()`. -/
def fsExists (fs : FS) (p : List String) : Bool := (getFile fs p).isSome || fsIsDir fs p

/-- `Path.write_text`: replace or append the entry for `p`. -/
def setFile (files : List (List String × String)) (p : List String) (t : String) :
    List (List String × String) :=
  if (files.find? (fun e => e.1 == p)).isSome then
    files.map (fun e => if e.1 == p then (p, t) else e)
  else files ++ [(p, t)]

/-- The proper ancestors of `p` below the working root (deepest last). -/
def properPrefixes (p : List String) : List (List String) :=
  (List.range (p.length - 1)).map (fun k => p.take (k + 1))

/-- `path.parent.mkdir(parents=True, exist_ok=True)`. -/
def mkdirParents (dirs : List (List String)) (p : List String) : List (List String) :=
  (properPrefixes p).foldl (fun ds d => if ds.contains d then ds else ds ++ [d]) dirs

/-- `"\n".join(content_lines)` plus the trailing-newline fix used by both
    `_write_file` and the Update writer. -/
def joinWriteText (ls : List String) : String :=
  let t := joinNl ls
  if t ≠ "" ∧ ¬ pyEndsWith t "\n" then t ++ "\n" else t

/-- `_write_file(path, content_lines)` from src/tools.py lines 382-387:
    create parent directories, then write the joined text. -/
def writeFileFS (fs : FS) (p : List String) (contentLines : List String) : FS :=
  ⟨setFile fs.files p (joinWriteText contentLines), mkdirParents fs.dirs p⟩

/-- `path.write_text(text)` with no `mkdir` (the Update writer). -/
def writeTextFS (fs : FS) (p : List String) (t : String) : FS :=
  ⟨setFile fs.files p t, fs.dirs⟩

/-- `path.unlink()`. -/
def unlinkFS (fs : FS) (p : List String) : FS :=
  ⟨fs.files.eraseP (fun e => e.1 == p), fs.dirs⟩

/-- `shutil.move(src, dst)`: when `dst` is an existing directory the file
    moves into it under its base name, otherwise `dst` is replaced. -/
def shutilMove (fs : FS) (src dst : List String) : FS :=
  let realDst := if fsIsDir fs dst then dst ++ [src.getLastD ""] else dst
  match getFile fs src with
  | none => fs
  | some t => ⟨setFile (fs.files.eraseP (fun e => e.1 == src)) realDst t, fs.dirs⟩

/-
The strict patch engine: `ToolExecutor.apply_patch` of src/tools.py
(lines 363-583).  The single `while` loop with index `i` is embedded as
`patchLoop`, one recursive step per loop iteration; the per-operation code
blocks become `addOp` / `deleteOp` / `updateOp`, each returning either the
error message the source returns (leaving the file system untouched, as the
source does: every mutation happens after all checks of its operation) or
the mutated state plus the summary entry, report block and remaining lines.
The first argument of `patchLoop` is fuel; `applyPatchLines` supplies
`lines.length + 1`, which always suffices because every iteration consumes
at least one line.
-/

/-- Error message for a missing `*** Begin Patch` envelope. -/
def msgMustStart : String :=
  "## Error\nPatch must start with " ++ quoted "*** Begin Patch" ++ "."

/-- Error message for a missing `*** End Patch` envelope. -/
def msgMustEnd : String :=
  "## Error\nPatch must end with " ++ quoted "*** End Patch" ++ "."

/-- Error message for a patch with no operations. -/
def msgNoOps : String := "## Error\nPatch contained no operations."

/-- The content loop of the Add branch (src/tools.py lines 403-411): consume
    `+`-prefixed lines until the next `*** ` directive; any other line is the
    offending line of a grammar error. -/
def takePlusLines : List String → Except String (List String × List String)
  | [] => Except.ok ([], [])
  | l :: rest =>
    if pyStartsWith l "*** " then Except.ok ([], l :: rest)
    else if pyStartsWith l "+" then
      match takePlusLines rest with
      | Except.ok (cs, r) => Except.ok (pyDrop l 1 :: cs, r)
      | Except.error e => Except.error e
    else Except.error l

/-- Hunk-body parsing of the strict Update branch (src/tools.py lines
    503-524): collect the before (context+removed) and after (context+added)
    sequences until the next `*** ` or `@@` line. -/
def parseHunkBodyStrict (rel : String) : List String → Except String (List String × List String × List String)
  | [] => Except.ok ([], [], [])
  | hl :: rest =>
    if pyStartsWith hl "*** " ∨ pyStartsWith hl "@@" then Except.ok ([], [], hl :: rest)
    else if hl = "" then
      match parseHunkBodyStrict rel rest with
      | Except.ok (b, a, r) => Except.ok ("" :: b, "" :: a, r)
      | Except.error e => Except.error e
    else
      let pfx := pyTake hl 1
      let content := pyDrop hl 1
      if pfx = " " then
        match parseHunkBodyStrict rel rest with
        | Except.ok (b, a, r) => Except.ok (content :: b, content :: a, r)
        | Except.error e => Except.error e
      else if pfx = "-" then
        match parseHunkBodyStrict rel rest with
        | Except.ok (b, a, r) => Except.ok (content :: b, a, r)
        | Except.error e => Except.error e
      else if pfx = "+" then
        match parseHunkBodyStrict rel rest with
        | Except.ok (b, a, r) => Except.ok (b, content :: a, r)
        | Except.error e => Except.error e
      else
        Except.error ("## Error\nInvalid hunk line prefix " ++ quoted pfx ++
          " in Update for " ++ quoted rel ++ ".")

/-- The scan of `find_subseq`: try start positions `s, s+1, ...` (`cnt` many). -/
def findSubseqGo (hay needle : List String) : Nat → Nat → Option Nat
  | _, 0 => none
  | s, cnt + 1 =>
    if (hay.drop s).take needle.length = needle then some s
    else findSubseqGo hay needle (s + 1) cnt

/-- `find_subseq(hay, needle)` (identical inner function of both Update
    branches): first index where `needle` occurs as a contiguous block of
    `hay`, 0 for an empty needle, `none` for Python's -1. -/
def findSubseq (hay needle : List String) : Option Nat :=
  if needle = [] then some 0
  else findSubseqGo hay needle 0 (hay.length + 1 - needle.length)

/-- The hunk loop of the strict Update branch (src/tools.py lines 501-538):
    while the next line starts a `@@` hunk, parse its body, locate the before
    sequence by exact first match (a miss aborts with the locate error),
    splice in the after sequence, and skip a following `*** End of File`.
    First argument is fuel (each iteration consumes at least one line). -/
def strictHunksLoop (rel : String) : Nat → List String → List String → Bool →
    Except String (List String × Bool × List String)
  | 0, _, _, _ => Except.error "(unreachable: fuel exhausted)"
  | fuel + 1, docLines, fileLines, changed =>
    match docLines with
    | [] => Except.ok (fileLines, changed, [])
    | l :: rest =>
      if ¬ pyStartsWith l "@@" then Except.ok (fileLines, changed, l :: rest)
      else
        match parseHunkBodyStrict rel rest with
        | Except.error e => Except.error e
        | Except.ok (before, after, rest2) =>
          match findSubseq fileLines before with
          | none => Except.error ("## Error\nFailed to locate hunk in target file.\nFile: " ++
              rel ++ "\nTip: Increase unique context in the hunk (use @@ headers and 3 lines of context).")
          | some s =>
            let newFile := fileLines.take s ++ after ++ fileLines.drop (s + before.length)
            let rest3 := match rest2 with
              | x :: xs => if pyStrip x = "*** End of File" then xs else x :: xs
              | [] => []
            strictHunksLoop rel fuel rest3 newFile true

/-- Python's `"{:+d}".format(n)`. -/
def fmtSigned (n : Int) : String := if 0 ≤ n then "+" ++ toString n else toString n

/-- The Add branch of src/tools.py (lines 395-435). -/
def addOp (fs : FS) (line : String) (rest : List String) :
    Except String (FS × String × String × List String) :=
  let rawPath := pyStrip (pyDrop line 14)
  match safeRelPath rawPath with
  | Except.error e => Except.error ("## Error\nInvalid Add path " ++ quoted rawPath ++ ": " ++ e)
  | Except.ok rel =>
    match takePlusLines rest with
    | Except.error off => Except.error ("## Error\nAdd File " ++ quoted rawPath ++
        " expects lines starting with " ++ quoted "+" ++ ". Offending line: " ++ off)
    | Except.ok (contentLines, rest2) =>
      if fsExists fs rel ∧ fsIsDir fs rel then
        Except.error ("## Error\nCannot add file; path is a directory: " ++ pathStr rel)
      else if fsExists fs rel then
        Except.error ("## Error\nCannot add file; it already exists: " ++ pathStr rel)
      else
        let fs2 := writeFileFS fs rel contentLines
        let addedCount := contentLines.length
        let entry := "Added " ++ pathStr rel ++ " (+" ++ toString addedCount ++ ")"
        let preview := joinNl ((contentLines.take 30).map (fun c => "+" ++ c))
        let truncNote :=
          if 30 < contentLines.length then
            "\n... (initial content truncated, " ++ toString (contentLines.length - 30) ++
              " more lines hidden) ..."
          else ""
        let block := "### Added: `" ++ pathStr rel ++ "`\n- Lines added: **" ++
          toString addedCount ++ "**\n" ++ mdCodeblock (preview ++ truncNote) "diff"
        Except.ok (fs2, entry, block, rest2)

/-- The Delete branch of src/tools.py (lines 438-461). -/
def deleteOp (fs : FS) (line : String) : Except String (FS × String × String) :=
  let rawPath := pyStrip (pyDrop line 17)
  match safeRelPath rawPath with
  | Except.error e => Except.error ("## Error\nInvalid Delete path " ++ quoted rawPath ++ ": " ++ e)
  | Except.ok rel =>
    if fsExists fs rel then
      if fsIsDir fs rel then
        Except.error ("## Error\nDelete File points to a directory: " ++ pathStr rel)
      else
        let oldText := (getFile fs rel).getD ""
        let oldCount := (pySplitlines oldText).length
        Except.ok (unlinkFS fs rel,
          "Deleted " ++ pathStr rel ++ " (-" ++ toString oldCount ++ ")",
          "### Deleted: `" ++ pathStr rel ++ "`\n- Previous line count: **" ++
            toString oldCount ++ "**\n")
    else Except.error ("## Error\nCannot delete non-existent file: " ++ pathStr rel)

/-- The Update branch of src/tools.py (lines 464-570): path check, optional
    `*** Move to:` header, hunk loop, write, optional move, final diff report.
    When a move targets an existing directory the source would raise while
    re-reading (`IsADirectoryError`); that corner is outside every claim and
    the model reads the empty string there. -/
def updateOp (fs : FS) (line : String) (rest : List String) :
    Except String (FS × String × String × List String) :=
  let rawPath := pyStrip (pyDrop line 17)
  match safeRelPath rawPath with
  | Except.error e => Except.error ("## Error\nInvalid Update path " ++ quoted rawPath ++ ": " ++ e)
  | Except.ok rel =>
    if ¬ fsExists fs rel ∨ fsIsDir fs rel then
      Except.error ("## Error\nUpdate target does not exist or is a directory: " ++ pathStr rel)
    else
      let moveParse : Except String (Option (List String) × String × List String) :=
        match rest with
        | [] => Except.ok (none, "", [])
        | m :: r =>
          if pyStartsWith m "*** Move to: " then
            let newp := pyStrip (pyDrop m 13)
            match safeRelPath newp with
            | Except.error e =>
              Except.error ("## Error\nInvalid Move to path " ++ quoted newp ++ ": " ++ e)
            | Except.ok mv =>
              Except.ok (some mv, " -> moved to `" ++ pathStr mv ++ "`", r)
          else Except.ok (none, "", m :: r)
      match moveParse with
      | Except.error e => Except.error e
      | Except.ok (moveTo, movedText, rest1) =>
        let oldText := (getFile fs rel).getD ""
        let oldLines := pySplitlines oldText
        match strictHunksLoop (pathStr rel) (rest1.length + 1) rest1 oldLines false with
        | Except.error e => Except.error e
        | Except.ok (fileLines, changed, rest2) =>
          if ¬ changed then
            Except.error ("## Error\nNo hunks provided for Update File: " ++ pathStr rel)
          else
            let fs1 := writeTextFS fs rel (joinWriteText fileLines)
            let moved : FS × List String :=
              match moveTo with
              | some mv => (shutilMove ⟨fs1.files, mkdirParents fs1.dirs mv⟩ rel mv, mv)
              | none => (fs1, rel)
            let fs2 := moved.1
            let finalPath := moved.2
            let finalLines := pySplitlines ((getFile fs2 finalPath).getD "")
            let ds := diffAndStats oldLines finalLines (pathStr rel) (pathStr finalPath)
            let net : Int := (ds.added : Int) - (ds.removed : Int)
            let entry := "Updated " ++ pathStr rel ++ movedText ++ " (+" ++ toString ds.added ++
              "/-" ++ toString ds.removed ++ ", net " ++ fmtSigned net ++ ")"
            let block := "### Updated: `" ++ pathStr rel ++ "`" ++ movedText ++
              "\n- Lines added: **" ++ toString ds.added ++ "**, removed: **" ++
              toString ds.removed ++ "**, net: **" ++ fmtSigned net ++ "**\n" ++
              mdCodeblock (if pyStrip ds.text ≠ "" then ds.text
                else "(no visible diff; whitespace-only change or metadata)") "diff"
            Except.ok (fs2, entry, block, rest2)

/-- The success report assembled at the end of `apply_patch`. -/
def patchReport (summary results : List String) : String :=
  "## Patch Applied\n" ++ joinNl (summary.map (fun op => "- " ++ op)) ++
    "\n\n---\n" ++ String.intercalate "\n\n" results

/-- The main while-loop of `apply_patch` (src/tools.py lines 389-583), one
    recursive step per iteration.  An operation error returns immediately with
    the file system as already mutated by *earlier* operations (no rollback);
    reaching the end of the lines without `*** End Patch` is the envelope
    error; text after `*** End Patch` is ignored (the loop breaks). -/
def patchLoop : Nat → FS → List String → List String → List String → FS × Except String String
  | 0, fs, _, _, _ => (fs, Except.error "(unreachable: fuel exhausted)")
  | _ + 1, fs, [], _, _ => (fs, Except.error msgMustEnd)
  | fuel + 1, fs, l :: rest, summary, results =>
    let line := pyRstripNl l
    if pyStrip line = "*** End Patch" then
      if summary = [] then (fs, Except.error msgNoOps)
      else (fs, Except.ok (patchReport summary results))
    else if pyStartsWith line "*** Add File: " then
      match addOp fs line rest with
      | Except.error e => (fs, Except.error e)
      | Except.ok (fs2, entry, block, rest2) =>
        patchLoop fuel fs2 rest2 (summary ++ [entry]) (results ++ [block])
    else if pyStartsWith line "*** Delete File: " then
      match deleteOp fs line with
      | Except.error e => (fs, Except.error e)
      | Except.ok (fs2, entry, block) =>
        patchLoop fuel fs2 rest (summary ++ [entry]) (results ++ [block])
    else if pyStartsWith line "*** Update File: " then
      match updateOp fs line rest with
      | Except.error e => (fs, Except.error e)
      | Except.ok (fs2, entry, block, rest2) =>
        patchLoop fuel fs2 rest2 (summary ++ [entry]) (results ++ [block])
    else (fs, Except.error ("## Error\nUnrecognized patch directive: " ++ line))

/-- `apply_patch` after `splitlines`: envelope check, then the loop. -/
def applyPatchLines (fs : FS) (lines : List String) : FS × Except String String :=
  match lines with
  | [] => (fs, Except.error msgMustStart)
  | l :: rest =>
    if pyStrip l = "*** Begin Patch" then patchLoop (rest.length + 1) fs rest [] []
    else (fs, Except.error msgMustStart)

/-- `ToolExecutor.apply_patch(patch)` of src/tools.py: empty-string check,
    split into lines, envelope check, main loop. -/
def applyPatchStr (fs : FS) (patch : String) : FS × Except String String :=
  if pyStrip patch = "" then
    (fs, Except.error ("## Error\n`patch` must be a non-empty string."))
  else applyPatchLines fs (pySplitlines patch)

example :
    applyPatchStr ⟨[], []⟩ "*** Begin Patch\n*** Add File: a.txt\n+hello\n*** End Patch" =
      (⟨[(["a.txt"], "hello\n")], []⟩,
        Except.ok (patchReport ["Added a.txt (+1)"]
          ["### Added: `a.txt`\n- Lines added: **1**\n" ++ mdCodeblock "+hello" "diff"])) := by
  decide

example :
    (applyPatchStr ⟨[], []⟩
      "*** Begin Patch\n*** Add File: d/a.txt\n+hello\n*** Delete File: d/a.txt\n*** End Patch").1 =
      ⟨[], [["d"]]⟩ := by decide

example : safeRelPath "../x" = Except.error pathTraversalMsg := by decide
example : safeRelPath "a/../b" = Except.error pathTraversalMsg := by decide
example : safeRelPath "/etc/passwd" = Except.error pathTraversalMsg := by decide
example : safeRelPath "a/./b//c" = Except.ok ["a", "b", "c"] := by decide

/-
The forgiving patch engine's Update-hunk machinery:
`ToolExecutor.apply_patch` of src/src/tools.py, lines 443-532.  Only the
Update section is embedded here (the claims about hunk matching cite it);
the header matcher below implements the regex
`^\*\*\*\s*(Add File|Delete File|Update File|Overwrite File|Move to)\s*:\s*(.+)$`
with IGNORECASE that `_match_header` applies to the stripped line.
-/

/-- The keyword alternatives of `_match_header`, lowercase, with their tags. -/
def headerKeywords : List (String × String) :=
  [("add file", "add"), ("delete file", "delete"), ("update file", "update"),
   ("overwrite file", "overwrite"), ("move to", "move_to")]

/-- Try the keyword alternatives in order against `t` (the stripped header text
    after `***` and following whitespace).  After a keyword: optional
    whitespace, a colon, and a nonempty argument, which is stripped — exactly
    the strings accepted by the `\s*:\s*(.+)$` tail of the regex. -/
def matchHeaderAux (t : String) : List (String × String) → Option (String × String)
  | [] => none
  | (kw, op) :: rest =>
    if pyLower (pyTake t kw.length) = kw then
      let r := pyLstrip (pyDrop t kw.length)
      if pyStartsWith r ":" then
        let arg := pyDrop r 1
        if arg = "" then matchHeaderAux t rest else some (op, pyStrip arg)
      else matchHeaderAux t rest
    else matchHeaderAux t rest

/-- `_match_header(line)` of src/src/tools.py lines 287-299. -/
def matchHeader (line : String) : Option (String × String) :=
  let s := pyStrip (pyRstripNl line)
  if pyStartsWith s "***" then matchHeaderAux (pyLstrip (pyDrop s 3)) headerKeywords
  else none

/-- `_is_end(line)` of src/src/tools.py. -/
def isEndLine (l : String) : Bool := pyLower (pyStrip (pyRstripNl l)) = "*** end patch"

/-- One hunk application of src/src/tools.py lines 515-528: exact first-match
    search for the before sequence, retried with both sides right-stripped;
    on success splice the after sequence over the matched window, returning
    the new buffer and the match index; `none` means the hunk is skipped. -/
def applyOneHunk (fileLines before after : List String) : Option (List String × Nat) :=
  let s0 :=
    match findSubseq fileLines before with
    | some s => some s
    | none => findSubseq (fileLines.map pyRstrip) (before.map pyRstrip)
  match s0 with
  | none => none
  | some s => some (fileLines.take s ++ after ++ fileLines.drop (s + before.length), s)

/-- The hunk-report line for a skipped hunk (src/src/tools.py line 522). -/
def skipReportSS (before after : List String) : String :=
  "- ⚠️  Hunk not applied (context not found); size before/after: " ++
    toString before.length ++ "/" ++ toString after.length

/-- The hunk-report line for an applied hunk (src/src/tools.py line 528). -/
def appliedReportSS (s e : Nat) (before after : List String) : String :=
  "- ✅ Hunk applied at lines " ++ toString s ++ ":" ++ toString e ++ " (−" ++
    toString before.length ++ " → +" ++ toString after.length ++ ")"

/-- Hunk-body parsing of src/src/tools.py lines 485-513: collect before/after
    sequences until `*** End Patch`, a recognized header, or the next `@@`. -/
def parseHunkBodySS (rel : String) : List String → Except String (List String × List String × List String)
  | [] => Except.ok ([], [], [])
  | hl :: rest =>
    if isEndLine hl ∨ (matchHeader hl).isSome ∨ pyStartsWith hl "@@" then
      Except.ok ([], [], hl :: rest)
    else if hl = "" then
      match parseHunkBodySS rel rest with
      | Except.ok (b, a, r) => Except.ok ("" :: b, "" :: a, r)
      | Except.error e => Except.error e
    else
      let pfx := pyTake hl 1
      let content := pyDrop hl 1
      if pfx = " " then
        match parseHunkBodySS rel rest with
        | Except.ok (b, a, r) => Except.ok (content :: b, content :: a, r)
        | Except.error e => Except.error e
      else if pfx = "-" then
        match parseHunkBodySS rel rest with
        | Except.ok (b, a, r) => Except.ok (content :: b, a, r)
        | Except.error e => Except.error e
      else if pfx = "+" then
        match parseHunkBodySS rel rest with
        | Except.ok (b, a, r) => Except.ok (b, content :: a, r)
        | Except.error e => Except.error e
      else
        Except.error ("## Error\nInvalid hunk line prefix " ++ quoted pfx ++
          " in Update for " ++ quoted rel ++ ".")

/-- State step for one parsed hunk: buffer, accumulated hunk reports, and the
    `changed_any` flag (src/src/tools.py lines 515-528). -/
def hunkStepSS (st : List String × List String × Bool) (h : List String × List String) :
    List String × List String × Bool :=
  match applyOneHunk st.1 h.1 h.2 with
  | none => (st.1, st.2.1 ++ [skipReportSS h.1 h.2], st.2.2)
  | some (nf, s) => (nf, st.2.1 ++ [appliedReportSS s (s + h.1.length) h.1 h.2], true)

/-- The error for a non-hunk line inside an Update section
    (src/src/tools.py line 481). -/
def expectedHunkMsg (rel line : String) : String :=
  "## Error\nExpected a hunk starting with " ++ quoted "@@" ++ " in Update for " ++
    quoted rel ++ ", got: " ++ line

/-- The interleaved hunk loop of src/src/tools.py lines 470-528: stop at
    `*** End Patch` or the next header; skip blank separator lines; a non-`@@`
    line is a grammar error; otherwise parse the hunk body and apply it to the
    running buffer.  First argument is fuel (each iteration consumes at least
    one document line); the state is (buffer, hunk reports, changed flag). -/
def updateLoopSS (rel : String) : Nat → List String → List String × List String × Bool →
    Except String (List String × List String × Bool × List String)
  | 0, _, _ => Except.error "(unreachable: fuel exhausted)"
  | fuel + 1, docLines, st =>
    match docLines with
    | [] => Except.ok (st.1, st.2.1, st.2.2, [])
    | l :: rest =>
      if isEndLine l ∨ (matchHeader l).isSome then Except.ok (st.1, st.2.1, st.2.2, l :: rest)
      else if ¬ pyStartsWith l "@@" then
        if pyStrip l = "" then updateLoopSS rel fuel rest st
        else Except.error (expectedHunkMsg rel l)
      else
        match parseHunkBodySS rel rest with
        | Except.error e => Except.error e
        | Except.ok (before, after, rest2) =>
          updateLoopSS rel fuel rest2 (hunkStepSS st (before, after))

/-- Parse-only mirror of `updateLoopSS`: the list of hunks (before, after) in
    document order, with the same stop conditions and grammar errors. -/
def parseHunksSS (rel : String) : Nat → List String →
    Except String (List (List String × List String) × List String)
  | 0, _ => Except.error "(unreachable: fuel exhausted)"
  | fuel + 1, docLines =>
    match docLines with
    | [] => Except.ok ([], [])
    | l :: rest =>
      if isEndLine l ∨ (matchHeader l).isSome then Except.ok ([], l :: rest)
      else if ¬ pyStartsWith l "@@" then
        if pyStrip l = "" then parseHunksSS rel fuel rest
        else Except.error (expectedHunkMsg rel l)
      else
        match parseHunkBodySS rel rest with
        | Except.error e => Except.error e
        | Except.ok (b, a, rest2) =>
          match parseHunksSS rel fuel rest2 with
          | Except.error e => Except.error e
          | Except.ok (hs, r) => Except.ok ((b, a) :: hs, r)

example : matchHeader "*** Update File: foo.txt" = some ("update", "foo.txt") := by decide
example : matchHeader "***   add FILE :  a b " = some ("add", "a b") := by decide
example : matchHeader "*** Add File:" = none := by decide
example : matchHeader "**** Add File: x" = none := by decide
example : matchHeader "*** End Patch" = none := by decide
example : isEndLine "  *** end PATCH  " = true := by decide

example : applyOneHunk ["a", "b", "c"] ["b"] ["x", "y"] = some (["a", "x", "y", "c"], 1) := by
  decide
example : applyOneHunk ["a", "b "] ["b"] ["x"] = some (["a", "x"], 1) := by decide
example : applyOneHunk ["a"] ["z"] ["x"] = none := by decide

/-
OutputCache pagination: `ToolExecutor._render_cache_page` (src/tools.py lines
274-308), `_cache_info_text` (lines 310-325) and `cache_tool` (lines 327-359).
`_render_cache_page` is split into the windowing computation
(`renderCachePageData`, the locals of lines 275-290) and the markdown
rendering built from it.
-/

/-- Source constant `DEFAULT_PAGE_SIZE`. -/
def DEFAULT_PAGE_SIZE : Nat := 200

/-- Source constant `MAX_PAGE_SIZE`. -/
def MAX_PAGE_SIZE : Int := 1000

/-- The windowing locals of `_render_cache_page`: clamp `page_size` into
    `[1, MAX_PAGE_SIZE]`, compute the page count, clamp `page` into
    `[0, total_pages - 1]`, and slice `lines[start:end]`. -/
structure CachePageData where
  slice : List String
  start : Nat
  stop : Nat
  total : Nat
  totalPages : Nat
  pageClamped : Nat
  psClamped : Nat
deriving DecidableEq

/-- Lines 275-290 of src/tools.py (the computation part of
    `_render_cache_page`). -/
def renderCachePageData (payload : String) (page pageSize : Int) : CachePageData :=
  let lines := pySplitlines payload
  let total := lines.length
  let ps : Int := max 1 (min pageSize MAX_PAGE_SIZE)
  let psN : Nat := ps.toNat
  let totalPages : Nat := if total = 0 then 1 else (total + psN - 1) / psN
  let p1 : Int := if page < 0 then 0 else page
  let pN : Nat := if (totalPages : Int) ≤ p1 then totalPages - 1 else p1.toNat
  let start := pN * psN
  let stop := min (start + psN) total
  ⟨(lines.drop start).take (stop - start), start, stop, total, totalPages, pN, psN⟩

/-- The navigation links of `_render_cache_page` (lines 294-302). -/
def cacheNav (cacheId : String) (pageC totalPages : Nat) : String :=
  let prev :=
    if 0 < pageC then
      ["- Prev: `cache(action=" ++ quoted "view" ++ ", cache_id=" ++ quoted cacheId ++
        ", page=" ++ toString (pageC - 1) ++ ")`"]
    else []
  let next :=
    if pageC < totalPages - 1 then
      ["- Next: `cache(action=" ++ quoted "view" ++ ", cache_id=" ++ quoted cacheId ++
        ", page=" ++ toString (pageC + 1) ++ ")`"]
    else []
  let nav := prev ++ next
  if nav = [] then "_(single page)_" else joinNl nav

/-- `_render_cache_page(cache_id, page, page_size)` with the payload passed
    explicitly (the source reads `self.cache[cache_id]`, which its callers
    guarantee to exist). -/
def renderCachePage (cacheId payload : String) (page pageSize : Int) : String :=
  let d := renderCachePageData payload page pageSize
  "#### Page " ++ toString (d.pageClamped + 1) ++ " of " ++ toString d.totalPages ++
    " (lines " ++ toString d.start ++ "–" ++ toString (max (d.stop - 1) d.start) ++
    " of " ++ toString (d.total - 1) ++ ")\n" ++
    mdCodeblock (joinNl d.slice) "text" ++
    cacheNav cacheId d.pageClamped d.totalPages

/-- `_cache_info_text(cache_id)` with the payload passed explicitly. -/
def cacheInfoText (cacheId payload : String) : String :=
  let totalChars := payload.length
  let lines := pySplitlines payload
  let totalLines := lines.length
  let totalPages := if totalLines = 0 then 1
    else (totalLines + DEFAULT_PAGE_SIZE - 1) / DEFAULT_PAGE_SIZE
  let headPreview := joinNl (lines.take (min 10 totalLines))
  "## Cache Info (ID: `" ++ cacheId ++ "`)\n- total_lines: **" ++ toString totalLines ++
    "**\n- total_chars: **" ++ toString totalChars ++ "**\n- total_pages (page_size=" ++
    toString DEFAULT_PAGE_SIZE ++ "): **" ++ toString totalPages ++ "**\n### Preview\n" ++
    mdCodeblock headPreview "text" ++
    "_Use `cache(action=" ++ quoted "view" ++ ", cache_id=" ++ quoted cacheId ++
    ", page=0, page_size=" ++ toString DEFAULT_PAGE_SIZE ++ ")` to start browsing._"

/-- `ToolExecutor.cache_tool(action, cache_id, page, page_size)` of src/tools.py
    lines 327-359; the cache dictionary is passed and returned explicitly
    (`drop` is its only mutation). -/
def cacheTool (cache : List (String × String)) (action cacheId : String)
    (page pageSize : Option Int) : List (String × String) × String :=
  match (cache.find? (fun e => e.1 == cacheId)).map (fun e => e.2) with
  | none => (cache, "## Error\nCache ID `" ++ cacheId ++ "` not found.")
  | some payload =>
    if ¬(action = "view" ∨ action = "info" ∨ action = "drop") then
      (cache, "## Error\n`action` must be one of: " ++ quoted "view" ++ ", " ++
        quoted "info" ++ ", " ++ quoted "drop" ++ ".")
    else if action = "drop" then
      (cache.eraseP (fun e => e.1 == cacheId), "## OK\nCache `" ++ cacheId ++ "` dropped.")
    else if action = "info" then (cache, cacheInfoText cacheId payload)
    else
      let p : Int := page.getD 0
      let ps : Int := pageSize.getD (DEFAULT_PAGE_SIZE : Int)
      let psC : Int := max 1 (min ps MAX_PAGE_SIZE)
      (cache, renderCachePage cacheId payload p psC)

example : (renderCachePageData "x" 5 200).slice = ["x"] := by decide
example : (renderCachePageData "x" 5 200).pageClamped = 0 := by decide
example : (renderCachePageData "a\nb\nc" 1 2).slice = ["c"] := by decide
example : (renderCachePageData "a\nb\nc" (-7) 2).slice = ["a", "b"] := by decide
example : (renderCachePageData "" 0 200).slice = [] := by decide
example : (renderCachePageData "a" 0 (-5)).psClamped = 1 := by decide

/-
ToolExecutor dispatch: `execute_tool` of src/src/harmony_cli/tools.py lines
247-261.  Python exceptions are modelled by `Except PyExc`: `typeError` covers
the `TypeError` raised when keyword arguments fail to bind (and any `TypeError`
escaping the handler — the source catches both with one clause), `otherExc`
any other `Exception` with its class name.  A handler is a Lean function into
`Except PyExc ToolReport`, so dispatch itself can never propagate an
exception, mirroring the try/except that spans the whole call. -/
inductive PyExc where
  | typeError (msg : String)
  | otherExc (excName msg : String)

/-- The `{"model": ..., "display": ...}` result dictionary. -/
structure ToolReport where
  model : String
  display : String
deriving DecidableEq

/-- The message built by the two `except` clauses of `execute_tool`. -/
def excEnvelopeMsg (toolName : String) (e : PyExc) : String :=
  match e with
  | PyExc.typeError te => "## Error\nInvalid arguments for `" ++ toolName ++ "`: " ++ te
  | PyExc.otherExc n m => "## Error\n" ++ n ++ ": " ++ m

/-- The uniform error envelope: the message as model text, its display
    truncation as display text. -/
def errEnvelope (msg : String) : ToolReport :=
  ⟨msg, displayTruncate msg DISPLAY_MAX_LINES⟩

/-- `ToolExecutor.execute_tool(tool_name, **kwargs)` of
    src/src/harmony_cli/tools.py lines 247-261. -/
def executeTool {α : Type} (tools : String → Option (α → Except PyExc ToolReport))
    (toolName : String) (args : α) : ToolReport :=
  match tools toolName with
  | none => errEnvelope ("## Error\nTool `" ++ toolName ++ "` not found.")
  | some f =>
    match f args with
    | Except.ok r => r
    | Except.error e => errEnvelope (excEnvelopeMsg toolName e)

/-- Specification vocabulary for hunk matching: `needle` occurs as a
    contiguous block of `hay` at index `s` (Python `hay[s:s+len(needle)] ==
    needle`; for a nonempty needle this forces `s + len(needle) <= len(hay)`). -/
abbrev occursAt (hay needle : List String) (s : Nat) : Prop :=
  (hay.drop s).take needle.length = needle

/-
Theorems.  Each claim Ck of the specification is settled by one theorem below
(with a witness instance when the theorem carries hypotheses); shared helper
lemmas come first.
-/

/-- A string starting with "+" does not start with "-". -/
theorem startsWith_plus_not_minus (x : String) :
    pyStartsWith x "+" = true → pyStartsWith x "-" = false := by
  obtain ⟨d⟩ := x
  cases d with
  | nil => intro h; exact absurd h (by decide)
  | cons c cs =>
    simp only [pyStartsWith, List.isPrefixOf, Bool.and_eq_true, beq_iff_eq]
    intro h
    simp [← h.1]

/-- The added/removed line tests are mutually exclusive. -/
theorem isAddedLine_isRemovedLine (x : String) :
    isAddedLine x = true → isRemovedLine x = false := by
  intro h
  simp only [isAddedLine, Bool.and_eq_true] at h
  simp [isRemovedLine, startsWith_plus_not_minus x h.1]

/-- The counting fold of `_diff_and_stats` counts exactly the lines passing
    the added-line and removed-line prefix tests. -/
theorem diffCountStep_foldl (L : List String) (a r : Nat) :
    L.foldl diffCountStep (a, r) =
      (a + L.countP isAddedLine, r + L.countP isRemovedLine) := by
  induction L generalizing a r with
  | nil => simp
  | cons x xs ih =>
    have hempty : isAddedLine "" = false := by decide
    have hempty2 : isRemovedLine "" = false := by decide
    by_cases h0 : x = ""
    · subst h0
      simp [diffCountStep, List.countP_cons, hempty, hempty2, ih]
    · by_cases h1 : isAddedLine x
      · have h2 := isAddedLine_isRemovedLine x h1
        simp [diffCountStep, h0, h1, h2, List.countP_cons, ih, Nat.add_assoc, Nat.add_comm 1]
      · by_cases h2 : isRemovedLine x
        · simp [diffCountStep, h0, h1, h2, List.countP_cons, ih, Nat.add_assoc, Nat.add_comm 1]
        · simp [diffCountStep, h0, h1, h2, List.countP_cons, ih]

/-- C1: the reported added/removed counts are computed from the *full* unified
    diff by the prefix tests (so the preview truncation never changes them) —
    but those prefix tests are not the same thing as "body lines tagged + or -
    with file headers excluded": an inserted line whose own content begins with
    "++" produces the body line "+++x", which the prefix test wrongly discards.
    At old = [], new = ["++x"] the emitted diff is exactly
    ["--- a", "+++ b", "@@ -0,0 +1 @@", "+++x\n"]; it has one '+'-tagged body
    line (file headers excluded), yet the reported count is added = 0. -/
theorem diff_count_mismatch_eval :
    (∀ oldL newL f t, (diffAndStats oldL newL f t).added =
        (fullDiffLines oldL newL f t).countP isAddedLine ∧
      (diffAndStats oldL newL f t).removed =
        (fullDiffLines oldL newL f t).countP isRemovedLine) ∧
    fullDiffLines [] ["++x"] "a" "b" = ["--- a", "+++ b", "@@ -0,0 +1 @@", "+++x\n"] ∧
    (diffAndStats [] ["++x"] "a" "b").added = 0 ∧
    (diffAndStats [] ["++x"] "a" "b").removed = 0 ∧
    ((fullDiffLines [] ["++x"] "a" "b").drop 2).countP (fun l => pyStartsWith l "+") = 1 := by
  refine ⟨fun oldL newL f t => ?_, by decide, by decide, by decide, by decide⟩
  show ((fullDiffLines oldL newL f t).foldl diffCountStep (0, 0)).1 = _ ∧
    ((fullDiffLines oldL newL f t).foldl diffCountStep (0, 0)).2 = _
  rw [diffCountStep_foldl]
  simp

/-- Ceiling-division bound: `t <= ceil(t/n) * n`. -/
theorem ceilDivMulGe (t n : Nat) (hn : 1 ≤ n) : t ≤ ((t + n - 1) / n) * n := by
  have hdm : (t + n - 1) / n * n + (t + n - 1) % n = t + n - 1 := Nat.div_add_mod' _ _
  have hmod := Nat.mod_lt (t + n - 1) (show 0 < n by omega)
  omega

/-- Master facts about the windowing computation of `_render_cache_page`:
    the clamps land in range and the slice is the in-bounds window. -/
theorem cachePageData_spec (payload : String) (page ps : Int) :
    1 ≤ (renderCachePageData payload page ps).psClamped ∧
    (renderCachePageData payload page ps).psClamped ≤ 1000 ∧
    1 ≤ (renderCachePageData payload page ps).totalPages ∧
    (renderCachePageData payload page ps).pageClamped <
      (renderCachePageData payload page ps).totalPages ∧
    (renderCachePageData payload page ps).start =
      (renderCachePageData payload page ps).pageClamped *
        (renderCachePageData payload page ps).psClamped ∧
    (renderCachePageData payload page ps).start ≤ (renderCachePageData payload page ps).stop ∧
    (renderCachePageData payload page ps).stop ≤ (renderCachePageData payload page ps).total ∧
    (renderCachePageData payload page ps).slice.length =
      (renderCachePageData payload page ps).stop - (renderCachePageData payload page ps).start ∧
    (renderCachePageData payload page ps).total = (pySplitlines payload).length := by
  simp only [renderCachePageData]
  set lines := pySplitlines payload with hlines
  set total := lines.length with htotal
  set psN : Nat := (max 1 (min ps MAX_PAGE_SIZE)).toNat with hpsN
  have hps1 : 1 ≤ psN := by simp only [hpsN, MAX_PAGE_SIZE]; omega
  have hps2 : psN ≤ 1000 := by simp only [hpsN, MAX_PAGE_SIZE]; omega
  set tp : Nat := if total = 0 then 1 else (total + psN - 1) / psN with htp
  have htp1 : 1 ≤ tp := by
    by_cases h : total = 0
    · simp [htp, h]
    · rw [htp, if_neg h, Nat.one_le_div_iff (by omega)]; omega
  have htpmul : total ≤ tp * psN := by
    by_cases h : total = 0
    · simp [htp, h]
    · rw [htp, if_neg h]; exact ceilDivMulGe total psN hps1
  have htpmul2 : total = 0 ∨ tp * psN ≤ total + psN - 1 := by
    by_cases h : total = 0
    · exact Or.inl h
    · right; rw [htp, if_neg h]; exact Nat.div_mul_le_self _ _
  set p1 : Int := if page < 0 then 0 else page with hp1
  have hp1nn : 0 ≤ p1 := by rw [hp1]; split <;> omega
  set pN : Nat := if (tp : Int) ≤ p1 then tp - 1 else p1.toNat with hpN
  have hpNlt : pN < tp := by
    rw [hpN]; split
    · omega
    · omega
  have hsub : (tp - 1) * psN = tp * psN - psN := by
    rw [Nat.sub_mul, Nat.one_mul]
  have hstart : pN * psN ≤ total := by
    rcases htpmul2 with h | h
    · have : tp = 1 := by rw [htp]; simp [h]
      have : pN = 0 := by omega
      simp [this, h]
    · have hple : pN ≤ tp - 1 := by omega
      have := Nat.mul_le_mul_right psN hple
      omega
  refine ⟨hps1, hps2, htp1, hpNlt, ?_, ?_, ?_, ?_, ?_⟩
  · trivial
  · omega
  · omega
  · rw [List.length_take, List.length_drop]
    omega
  · trivial

/-- The page count reported by the cache window does not depend on the
    requested page. -/
theorem totalPages_const (payload : String) (p q ps : Int) :
    (renderCachePageData payload p ps).totalPages =
      (renderCachePageData payload q ps).totalPages := rfl

/-- Two requests whose clamped pages agree produce identical window data. -/
theorem renderCachePageData_eq_of_pageClamped (payload : String) (ps p q : Int)
    (h : (renderCachePageData payload p ps).pageClamped =
      (renderCachePageData payload q ps).pageClamped) :
    renderCachePageData payload p ps = renderCachePageData payload q ps := by
  simp only [renderCachePageData] at h ⊢
  rw [h]

/-- Clamp arithmetic: an in-range page index is left unchanged. -/
theorem clampNat_of_lt (tp q : Nat) (h : q < tp) :
    (if (tp : Int) ≤ (if (q : Int) < 0 then 0 else (q : Int)) then tp - 1
     else (if (q : Int) < 0 then 0 else (q : Int)).toNat) = q := by
  rw [if_neg (show ¬ ((q : Int) < 0) by omega)]
  rw [if_neg (show ¬ ((tp : Int) ≤ (q : Int)) by omega)]
  omega

/-- Clamp arithmetic: a page index at or beyond the page count clamps to the
    last page. -/
theorem clampNat_of_ge (tp : Nat) (page : Int) (htp1 : 1 ≤ tp) (h : (tp : Int) ≤ page) :
    (if (tp : Int) ≤ (if page < 0 then 0 else page) then tp - 1
     else (if page < 0 then 0 else page).toNat) = tp - 1 := by
  rw [if_neg (show ¬ (page < 0) by omega)]
  rw [if_pos h]

/-- Clamp arithmetic: a negative page index clamps to page 0. -/
theorem clampNat_of_neg (tp : Nat) (page : Int) (htp1 : 1 ≤ tp) (h : page < 0) :
    (if (tp : Int) ≤ (if page < 0 then 0 else page) then tp - 1
     else (if page < 0 then 0 else page).toNat) = 0 := by
  rw [if_pos h]
  rw [if_neg (show ¬ ((tp : Int) ≤ 0) by omega)]
  omega

/-- Asking for a page index already in the valid range leaves it unclamped. -/
theorem pageClamped_of_inrange (payload : String) (ps : Int) (q : Nat)
    (h : q < (renderCachePageData payload (0 : Int) ps).totalPages) :
    (renderCachePageData payload (q : Int) ps).pageClamped = q := by
  simp only [renderCachePageData] at h ⊢
  exact clampNat_of_lt _ q h

/-- C10: for every cached payload and arbitrary integer `page`/`page_size`
    arguments (negative and oversized values included) the view computation of
    `cache_tool` clamps `page_size` into `[1, MAX_PAGE_SIZE]` and `page` into
    `[0, total_pages - 1]`, and the returned slice is the in-bounds window
    `0 ≤ start ≤ end ≤ total_lines` of exactly `end - start` lines, so the
    (total) cache tool never raises and never indexes out of bounds. -/
theorem cache_view_always_in_bounds (payload : String) (page ps : Int) :
    1 ≤ (renderCachePageData payload page ps).psClamped ∧
    (renderCachePageData payload page ps).psClamped ≤ 1000 ∧
    (renderCachePageData payload page ps).pageClamped ≤
      (renderCachePageData payload page ps).totalPages - 1 ∧
    (renderCachePageData payload page ps).start ≤ (renderCachePageData payload page ps).stop ∧
    (renderCachePageData payload page ps).stop ≤ (renderCachePageData payload page ps).total ∧
    (renderCachePageData payload page ps).total = (pySplitlines payload).length ∧
    (renderCachePageData payload page ps).slice.length =
      (renderCachePageData payload page ps).stop - (renderCachePageData payload page ps).start := by
  obtain ⟨h1, h2, h3, h4, h5, h6, h7, h8, h9⟩ := cachePageData_spec payload page ps
  exact ⟨h1, h2, by omega, h6, h7, h9, h8⟩

/-- C6: for an in-range page/page_size request (`1 ≤ page_size ≤ MAX_PAGE_SIZE`,
    `0 ≤ page`, `start = page * page_size < total`), the view returns exactly
    `min(page_size, total - start)` lines starting at line `start`, and the
    total it reports is the payload's line count on every call. -/
theorem cache_view_window (payload : String) (page ps : Int)
    (hps1 : 1 ≤ ps) (hps2 : ps ≤ 1000) (hpg : 0 ≤ page)
    (hin : page.toNat * ps.toNat < (pySplitlines payload).length) :
    (renderCachePageData payload page ps).start = page.toNat * ps.toNat ∧
    (renderCachePageData payload page ps).slice =
      ((pySplitlines payload).drop (page.toNat * ps.toNat)).take
        (min ps.toNat ((pySplitlines payload).length - page.toNat * ps.toNat)) ∧
    (renderCachePageData payload page ps).slice.length =
      min ps.toNat ((pySplitlines payload).length - page.toNat * ps.toNat) ∧
    (∀ page2 ps2 : Int, (renderCachePageData payload page2 ps2).total =
      (pySplitlines payload).length) := by
  simp only [renderCachePageData, MAX_PAGE_SIZE]
  set lines := pySplitlines payload with hlines
  set total := lines.length with htotal
  have hmax : max 1 (min ps 1000) = ps := by omega
  rw [hmax]
  have hneg : ¬ page < 0 := by omega
  rw [if_neg hneg]
  have htot0 : ¬ total = 0 := by omega
  rw [if_neg htot0]
  have hps1N : 1 ≤ ps.toNat := by omega
  have hlt : page.toNat < (total + ps.toNat - 1) / ps.toNat := by
    have hge := ceilDivMulGe total ps.toNat hps1N
    by_contra hc
    push_neg at hc
    have hmul := Nat.mul_le_mul_right ps.toNat hc
    omega
  rw [if_neg (show ¬ ((((total + ps.toNat - 1) / ps.toNat : Nat) : Int) ≤ page) by omega)]
  refine ⟨rfl, ?_, ?_, fun _ _ => trivial⟩
  · have hm : min (page.toNat * ps.toNat + ps.toNat) total - page.toNat * ps.toNat =
        min ps.toNat (total - page.toNat * ps.toNat) := by omega
    rw [hm]
  · rw [List.length_take, List.length_drop]
    omega

/-- C6 witness: a three-line payload viewed at page 1 with page size 2 yields
    the single line of the final page. -/
theorem cache_view_window_witness :
    ((1 : Int) ≤ 2 ∧ (2 : Int) ≤ 1000 ∧ (0 : Int) ≤ 1 ∧
      (1 : Int).toNat * (2 : Int).toNat < (pySplitlines "a\nb\nc").length) ∧
    (renderCachePageData "a\nb\nc" 1 2).slice = ["c"] := by
  have h := cache_view_window "a\nb\nc" 1 2 (by decide) (by decide) (by decide) (by decide)
  refine ⟨⟨by decide, by decide, by decide, by decide⟩, ?_⟩
  rw [h.2.1]
  decide

/-- C7 counterexample: with the one-line payload "x" and the out-of-range page
    index 5, the cache answers with the last valid page's content — identical
    to the page-0 view, not an error naming the valid range. -/
theorem cache_out_of_range_ce :
    (renderCachePageData "x" 5 200).slice = ["x"] ∧
    renderCachePage "cid" "x" 5 200 = renderCachePage "cid" "x" 0 200 ∧
    pyStartsWith (renderCachePage "cid" "x" 5 200) "## Error" = false ∧
    (cacheTool [("cid", "x")] "view" "cid" (some 5) (some 200)).2 =
      renderCachePage "cid" "x" 5 200 := by decide

/-- C7 amended: a view request on an existing cache entry whose page index is
    out of range is not an error: the page is clamped to the nearest valid
    page (total_pages - 1 from above, 0 from below) and that valid page's
    content is returned. -/
theorem cache_out_of_range_clamped (cacheId payload : String) (page ps : Int) :
    (((renderCachePageData payload page ps).totalPages : Int) ≤ page →
      (renderCachePageData payload page ps).pageClamped =
        (renderCachePageData payload page ps).totalPages - 1) ∧
    (page < 0 → (renderCachePageData payload page ps).pageClamped = 0) ∧
    renderCachePage cacheId payload page ps =
      renderCachePage cacheId payload ((renderCachePageData payload page ps).pageClamped : Int) ps ∧
    (renderCachePageData payload page ps).pageClamped <
      (renderCachePageData payload page ps).totalPages := by
  have hspec := cachePageData_spec payload page ps
  have hlt := hspec.2.2.2.1
  have htp1 := hspec.2.2.1
  refine ⟨?_, ?_, ?_, hlt⟩
  · intro h
    simp only [renderCachePageData] at h htp1 ⊢
    exact clampNat_of_ge _ page htp1 h
  · intro h
    simp only [renderCachePageData] at htp1 ⊢
    exact clampNat_of_neg _ page htp1 h
  · have hin : (renderCachePageData payload page ps).pageClamped <
        (renderCachePageData payload (0 : Int) ps).totalPages := by
      rw [← totalPages_const payload page 0 ps]
      exact hlt
    have h1 := pageClamped_of_inrange payload ps
      (renderCachePageData payload page ps).pageClamped hin
    have hdata := renderCachePageData_eq_of_pageClamped payload ps
      (((renderCachePageData payload page ps).pageClamped : Nat) : Int) page (by rw [h1])
    simp only [renderCachePage]
    rw [hdata]

/-- C7 amended witness: page 5 of the one-line payload "x" clamps to the last
    page (index 0) and yields its content. -/
theorem cache_out_of_range_clamped_witness :
    (((renderCachePageData "x" 5 200).totalPages : Int) ≤ 5 ∧
      (renderCachePageData "x" 5 200).pageClamped =
        (renderCachePageData "x" 5 200).totalPages - 1) ∧
    ((-3 : Int) < 0 ∧ (renderCachePageData "x" (-3) 200).pageClamped = 0) := by
  refine ⟨⟨by decide, (cache_out_of_range_clamped "cid" "x" 5 200).1 (by decide)⟩,
    ⟨by decide, (cache_out_of_range_clamped "cid" "x" (-3) 200).2.1 (by decide)⟩⟩

/-- Prefix tests compose: if `q` prefixes `p` and `p` prefixes `s`, then `q`
    prefixes `s`. -/
theorem pyStartsWith_trans (s p q : String) (h1 : pyStartsWith p q = true)
    (h2 : pyStartsWith s p = true) : pyStartsWith s q = true := by
  simp only [pyStartsWith, List.isPrefixOf_iff_prefix] at h1 h2 ⊢
  exact h1.trans h2

/-- `find?` skips a block with no hit. -/
theorem find?_append_none {α : Type} (p : α → Bool) (l₁ l₂ : List α)
    (h : l₁.find? p = none) : (l₁ ++ l₂).find? p = l₂.find? p := by
  induction l₁ with
  | nil => rfl
  | cons x xs ih =>
    cases hx : p x with
    | true => simp [List.find?_cons, hx] at h
    | false =>
      simp only [List.cons_append, List.find?_cons, hx] at h ⊢
      exact ih h

/-- A path that does not exist has no file entry, is not the root, and is not
    a recorded directory. -/
theorem fsExists_false_parts (fs : FS) (p : List String) (h : fsExists fs p = false) :
    fs.files.find? (fun e => e.1 == p) = none ∧ (p == []) = false ∧
      fs.dirs.contains p = false := by
  simp only [fsExists, getFile, fsIsDir, Bool.or_eq_false_iff] at h
  obtain ⟨h1, h2, h3⟩ := h
  refine ⟨?_, h2, h3⟩
  cases hf : fs.files.find? (fun e => e.1 == p) with
  | none => rfl
  | some e => rw [hf] at h1; simp at h1

/-- Writing a fresh file appends its entry. -/
theorem setFile_fresh (files : List (List String × String)) (p : List String) (t : String)
    (h : files.find? (fun e => e.1 == p) = none) :
    setFile files p t = files ++ [(p, t)] := by
  simp [setFile, h]

/-- Erasing a freshly appended entry restores the original list. -/
theorem eraseP_append_fresh (files : List (List String × String)) (p : List String)
    (t : String) (h : files.find? (fun e => e.1 == p) = none) :
    (files ++ [(p, t)]).eraseP (fun e => e.1 == p) = files := by
  have hall : ∀ e ∈ files, ¬ (fun e : List String × String => e.1 == p) e := by
    intro e he
    exact List.find?_eq_none.mp h e he
  rw [List.eraseP_append_right _ hall]
  simp [List.eraseP_cons]

/-- Inserting only already-present directories is the identity. -/
theorem foldl_insert_noop (dirs : List (List String)) :
    ∀ l : List (List String), (∀ d ∈ l, dirs.contains d = true) →
      l.foldl (fun ds d => if ds.contains d then ds else ds ++ [d]) dirs = dirs := by
  intro l
  induction l with
  | nil => intro _; rfl
  | cons d ds ih =>
    intro h
    simp only [List.foldl_cons]
    rw [if_pos (h d (by simp))]
    exact ih (fun x hx => h x (by simp [hx]))

/-- Creating parent directories that all already exist changes nothing. -/
theorem mkdirParents_noop (dirs : List (List String)) (p : List String)
    (h : ∀ d ∈ properPrefixes p, dirs.contains d = true) :
    mkdirParents dirs p = dirs :=
  foldl_insert_noop dirs (properPrefixes p) h

/-- C8 counterexample: on an empty working tree, applying `Add d/a.txt` then
    `Delete d/a.txt` in one patch does not restore the prior state: the file
    is gone but the directory `d` created by the Add persists. -/
theorem add_delete_roundtrip_ce :
    (applyPatchStr ⟨[], []⟩
      "*** Begin Patch\n*** Add File: d/a.txt\n+hello\n*** Delete File: d/a.txt\n*** End Patch").1 =
      ⟨[], [["d"]]⟩ ∧
    (⟨[], [["d"]]⟩ : FS) ≠ ⟨[], []⟩ ∧
    getFile (applyPatchStr ⟨[], []⟩
      "*** Begin Patch\n*** Add File: d/a.txt\n+hello\n*** Delete File: d/a.txt\n*** End Patch").1
      ["d", "a.txt"] = none := by decide

/-- C8 amended: applying `Add` then `Delete` on the same path restores the
    working tree exactly, provided the path is fresh and every parent
    directory of the path already exists (otherwise the Add's `mkdir` of
    missing parents survives the Delete, as the counterexample shows). -/
theorem add_delete_roundtrip (fuel : Nat) (fs : FS) (summary results : List String)
    (la lc ld endL : String) (rest : List String) (comps : List String)
    (hna : pyRstripNl la = la) (ha1 : pyStrip la ≠ "*** End Patch")
    (ha2 : pyStartsWith la "*** Add File: " = true)
    (hpa : safeRelPath (pyStrip (pyDrop la 14)) = Except.ok comps)
    (hc1 : pyStartsWith lc "*** " = false) (hc2 : pyStartsWith lc "+" = true)
    (hnd : pyRstripNl ld = ld) (hd1 : pyStrip ld ≠ "*** End Patch")
    (hd2 : pyStartsWith ld "*** Add File: " = false)
    (hd3 : pyStartsWith ld "*** Delete File: " = true)
    (hpd : safeRelPath (pyStrip (pyDrop ld 17)) = Except.ok comps)
    (he : pyStrip (pyRstripNl endL) = "*** End Patch")
    (hex : fsExists fs comps = false)
    (hdirs : ∀ d ∈ properPrefixes comps, fs.dirs.contains d = true) :
    ∃ rep, patchLoop (fuel + 3) fs (la :: lc :: ld :: endL :: rest) summary results =
      (fs, Except.ok rep) := by
  obtain ⟨hfind, hne, hnd2⟩ := fsExists_false_parts fs comps hex
  have hld4 : pyStartsWith ld "*** " = true :=
    pyStartsWith_trans ld "*** Delete File: " "*** " (by decide) hd3
  have htake : takePlusLines (lc :: ld :: endL :: rest) =
      Except.ok ([pyDrop lc 1], ld :: endL :: rest) := by
    simp [takePlusLines, hc1, hc2, hld4]
  have hw : writeFileFS fs comps [pyDrop lc 1] =
      ⟨fs.files ++ [(comps, joinWriteText [pyDrop lc 1])], fs.dirs⟩ := by
    simp only [writeFileFS]
    rw [setFile_fresh _ _ _ hfind, mkdirParents_noop _ _ hdirs]
  obtain ⟨eA, bA, haddEq⟩ : ∃ e b, addOp fs la (lc :: ld :: endL :: rest) = Except.ok
      (⟨fs.files ++ [(comps, joinWriteText [pyDrop lc 1])], fs.dirs⟩, e, b,
        ld :: endL :: rest) := by
    simp only [addOp, hpa, htake]
    rw [if_neg (by simp [hex]), if_neg (by simp [hex]), hw]
    exact ⟨_, _, rfl⟩
  have hget2 : getFile ⟨fs.files ++ [(comps, joinWriteText [pyDrop lc 1])], fs.dirs⟩ comps =
      some (joinWriteText [pyDrop lc 1]) := by
    simp only [getFile]
    rw [find?_append_none _ _ _ hfind]
    simp [List.find?_cons]
  have hunlink : unlinkFS ⟨fs.files ++ [(comps, joinWriteText [pyDrop lc 1])], fs.dirs⟩ comps =
      fs := by
    simp only [unlinkFS]
    rw [eraseP_append_fresh _ _ _ hfind]
  obtain ⟨eD, bD, hdelEq⟩ : ∃ e b,
      deleteOp ⟨fs.files ++ [(comps, joinWriteText [pyDrop lc 1])], fs.dirs⟩ ld =
        Except.ok (fs, e, b) := by
    have hmem : comps ∉ fs.dirs := by simpa using hnd2
    simp only [deleteOp, hpd]
    rw [if_pos (by simp [fsExists, hget2]), if_neg (by simp [fsIsDir, hne, hmem]), hget2,
      hunlink]
    exact ⟨_, _, rfl⟩
  refine ⟨patchReport (summary ++ [eA] ++ [eD]) (results ++ [bA] ++ [bD]), ?_⟩
  show patchLoop ((fuel + 2) + 1) fs (la :: lc :: ld :: endL :: rest) summary results = _
  simp only [patchLoop, hna, hnd, ha1, ha2, hd1, hd2, hd3, he, haddEq, hdelEq]
  simp

/-- C8 amended witness: adding then deleting `a.txt` (whose parent is the
    working root) on an empty tree leaves the tree exactly empty. -/
theorem add_delete_roundtrip_witness :
    (pyRstripNl "*** Add File: a.txt" = "*** Add File: a.txt" ∧
      pyStrip "*** Add File: a.txt" ≠ "*** End Patch" ∧
      pyStartsWith "*** Add File: a.txt" "*** Add File: " = true ∧
      safeRelPath (pyStrip (pyDrop "*** Add File: a.txt" 14)) = Except.ok ["a.txt"] ∧
      pyStartsWith "+hi" "*** " = false ∧ pyStartsWith "+hi" "+" = true ∧
      safeRelPath (pyStrip (pyDrop "*** Delete File: a.txt" 17)) = Except.ok ["a.txt"] ∧
      pyStrip (pyRstripNl "*** End Patch") = "*** End Patch" ∧
      fsExists ⟨[], []⟩ ["a.txt"] = false) ∧
    ∃ rep, patchLoop (0 + 3) ⟨[], []⟩
      ["*** Add File: a.txt", "+hi", "*** Delete File: a.txt", "*** End Patch"] [] [] =
      (⟨[], []⟩, Except.ok rep) := by
  refine ⟨⟨by decide, by decide, by decide, by decide, by decide, by decide, by decide,
    by decide, by decide⟩, ?_⟩
  exact add_delete_roundtrip 0 ⟨[], []⟩ [] [] "*** Add File: a.txt" "+hi"
    "*** Delete File: a.txt" "*** End Patch" [] ["a.txt"] (by decide) (by decide)
    (by decide) (by decide) (by decide) (by decide) (by decide) (by decide) (by decide)
    (by decide) (by decide) (by decide) (by decide) (by decide)

/-- C2: `_safe_rel_path` rejects every absolute path and every path containing
    a `..` component with a ValueError (never a silent correction), and a
    patch operation header (Add, Delete or Update) naming such a path makes
    `apply_patch` return the corresponding error with the file system exactly
    as it was: no mutation is performed by the rejected operation and the rest
    of the document (arbitrary here) is never processed. -/
theorem pathguard_rejects (p : String) (fuel : Nat) (fs : FS)
    (summary results : List String) (l : String) (rest : List String) :
    ((pyStartsWith p "/" = true ∨ ".." ∈ pathParts p) →
      safeRelPath p = Except.error pathTraversalMsg) ∧
    (pyRstripNl l = l → pyStrip l ≠ "*** End Patch" →
      pyStartsWith l "*** Add File: " = true →
      safeRelPath (pyStrip (pyDrop l 14)) = Except.error pathTraversalMsg →
      patchLoop (fuel + 1) fs (l :: rest) summary results =
        (fs, Except.error ("## Error\nInvalid Add path " ++
          quoted (pyStrip (pyDrop l 14)) ++ ": " ++ pathTraversalMsg))) ∧
    (pyRstripNl l = l → pyStrip l ≠ "*** End Patch" →
      pyStartsWith l "*** Add File: " = false →
      pyStartsWith l "*** Delete File: " = true →
      safeRelPath (pyStrip (pyDrop l 17)) = Except.error pathTraversalMsg →
      patchLoop (fuel + 1) fs (l :: rest) summary results =
        (fs, Except.error ("## Error\nInvalid Delete path " ++
          quoted (pyStrip (pyDrop l 17)) ++ ": " ++ pathTraversalMsg))) ∧
    (pyRstripNl l = l → pyStrip l ≠ "*** End Patch" →
      pyStartsWith l "*** Add File: " = false →
      pyStartsWith l "*** Delete File: " = false →
      pyStartsWith l "*** Update File: " = true →
      safeRelPath (pyStrip (pyDrop l 17)) = Except.error pathTraversalMsg →
      patchLoop (fuel + 1) fs (l :: rest) summary results =
        (fs, Except.error ("## Error\nInvalid Update path " ++
          quoted (pyStrip (pyDrop l 17)) ++ ": " ++ pathTraversalMsg))) := by
  refine ⟨?_, ?_, ?_, ?_⟩
  · intro h
    simp only [safeRelPath]
    rcases h with h | h
    · rw [if_pos (Or.inl h)]
    · rw [if_pos (Or.inr (Or.inr (Or.inr h)))]
  · intro h1 h2 h3 h4
    simp only [patchLoop, h1, h2, h3, addOp, h4]
    simp
  · intro h1 h2 h3 h4 h5
    simp only [patchLoop, h1, h2, h3, h4, deleteOp, h5]
    simp
  · intro h1 h2 h3 h4 h5 h6
    simp only [patchLoop, h1, h2, h3, h4, h5, updateOp, h6]
    simp

/-- C2 witness: the absolute path "/etc/passwd" and the traversal "../x" are
    both rejected, and each operation header naming "../x" errors out with the
    tree untouched. -/
theorem pathguard_rejects_witness :
    (pyStartsWith "/etc/passwd" "/" = true ∧
      safeRelPath "/etc/passwd" = Except.error pathTraversalMsg) ∧
    (".." ∈ pathParts "a/../b" ∧
      safeRelPath "a/../b" = Except.error pathTraversalMsg) ∧
    patchLoop (0 + 1) ⟨[], []⟩ ["*** Add File: ../x"] [] [] =
      (⟨[], []⟩, Except.error ("## Error\nInvalid Add path " ++
        quoted (pyStrip (pyDrop "*** Add File: ../x" 14)) ++ ": " ++ pathTraversalMsg)) ∧
    patchLoop (0 + 1) ⟨[], []⟩ ["*** Delete File: ../x"] [] [] =
      (⟨[], []⟩, Except.error ("## Error\nInvalid Delete path " ++
        quoted (pyStrip (pyDrop "*** Delete File: ../x" 17)) ++ ": " ++ pathTraversalMsg)) ∧
    patchLoop (0 + 1) ⟨[], []⟩ ["*** Update File: ../x"] [] [] =
      (⟨[], []⟩, Except.error ("## Error\nInvalid Update path " ++
        quoted (pyStrip (pyDrop "*** Update File: ../x" 17)) ++ ": " ++ pathTraversalMsg)) := by
  refine ⟨⟨by decide, (pathguard_rejects "/etc/passwd" 0 ⟨[], []⟩ [] [] "" []).1
      (Or.inl (by decide))⟩,
    ⟨by decide, (pathguard_rejects "a/../b" 0 ⟨[], []⟩ [] [] "" []).1
      (Or.inr (by decide))⟩, ?_, ?_, ?_⟩
  · exact (pathguard_rejects "" 0 ⟨[], []⟩ [] [] "*** Add File: ../x" []).2.1
      (by decide) (by decide) (by decide) (by decide)
  · exact (pathguard_rejects "" 0 ⟨[], []⟩ [] [] "*** Delete File: ../x" []).2.2.1
      (by decide) (by decide) (by decide) (by decide) (by decide)
  · exact (pathguard_rejects "" 0 ⟨[], []⟩ [] [] "*** Update File: ../x" []).2.2.2
      (by decide) (by decide) (by decide) (by decide) (by decide) (by decide)

/-- C4: once an Add operation has been applied, (i) a later unrecognized
    directive, (ii) a missing `*** End Patch` marker, and (iii) a
    wrongly-prefixed line inside a following Add block each make `apply_patch`
    return a grammar error immediately: the remaining document (the arbitrary
    `rest`) is never processed, and the operations already applied are not
    rolled back — the result state is exactly the tree with the first file
    written, which still holds its new content. -/
theorem grammar_error_no_rollback (fuel : Nat) (fs : FS) (summary results : List String)
    (la lc : String) (rest : List String) (comps : List String)
    (hna : pyRstripNl la = la) (ha1 : pyStrip la ≠ "*** End Patch")
    (ha2 : pyStartsWith la "*** Add File: " = true)
    (hpa : safeRelPath (pyStrip (pyDrop la 14)) = Except.ok comps)
    (hc1 : pyStartsWith lc "*** " = false) (hc2 : pyStartsWith lc "+" = true)
    (hex : fsExists fs comps = false) :
    (∀ lb, pyRstripNl lb = lb → pyStrip lb ≠ "*** End Patch" →
      pyStartsWith lb "*** " = true →
      pyStartsWith lb "*** Add File: " = false →
      pyStartsWith lb "*** Delete File: " = false →
      pyStartsWith lb "*** Update File: " = false →
      patchLoop (fuel + 2) fs (la :: lc :: lb :: rest) summary results =
        (writeFileFS fs comps [pyDrop lc 1],
          Except.error ("## Error\nUnrecognized patch directive: " ++ lb))) ∧
    patchLoop (fuel + 2) fs [la, lc] summary results =
      (writeFileFS fs comps [pyDrop lc 1], Except.error msgMustEnd) ∧
    (∀ la2 lx comps2, pyRstripNl la2 = la2 → pyStrip la2 ≠ "*** End Patch" →
      pyStartsWith la2 "*** Add File: " = true →
      safeRelPath (pyStrip (pyDrop la2 14)) = Except.ok comps2 →
      pyStartsWith lx "*** " = false → pyStartsWith lx "+" = false →
      patchLoop (fuel + 2) fs (la :: lc :: la2 :: lx :: rest) summary results =
        (writeFileFS fs comps [pyDrop lc 1],
          Except.error ("## Error\nAdd File " ++ quoted (pyStrip (pyDrop la2 14)) ++
            " expects lines starting with " ++ quoted "+" ++ ". Offending line: " ++ lx))) ∧
    getFile (writeFileFS fs comps [pyDrop lc 1]) comps = some (joinWriteText [pyDrop lc 1]) := by
  have hfind := (fsExists_false_parts fs comps hex).1
  have addEq : ∀ after : List String, pyStartsWith (after.headD "*** ") "*** " = true →
      ∃ e b, addOp fs la (lc :: after) = Except.ok
        (writeFileFS fs comps [pyDrop lc 1], e, b, after) := by
    intro after hafter
    have htake : takePlusLines (lc :: after) = Except.ok ([pyDrop lc 1], after) := by
      cases after with
      | nil => simp [takePlusLines, hc1, hc2]
      | cons x xs =>
        simp only [List.headD_cons] at hafter
        simp [takePlusLines, hc1, hc2, hafter]
    simp only [addOp, hpa, htake]
    rw [if_neg (by simp [hex]), if_neg (by simp [hex])]
    exact ⟨_, _, rfl⟩
  refine ⟨?_, ?_, ?_, ?_⟩
  · intro lb hnb hb1 hb2 hb3 hb4 hb5
    obtain ⟨eA, bA, haddEq⟩ := addEq (lb :: rest) (by simpa using hb2)
    show patchLoop ((fuel + 1) + 1) fs (la :: lc :: lb :: rest) summary results = _
    simp only [patchLoop, hna, ha1, ha2, haddEq, hnb, hb1, hb3, hb4, hb5]
    simp
  · obtain ⟨eA, bA, haddEq⟩ := addEq [] (by decide)
    show patchLoop ((fuel + 1) + 1) fs [la, lc] summary results = _
    simp only [patchLoop, hna, ha1, ha2, haddEq]
    simp
  · intro la2 lx comps2 hna2 ha21 ha22 hpa2 hx1 hx2
    obtain ⟨eA, bA, haddEq⟩ := addEq (la2 :: lx :: rest)
      (by simpa using pyStartsWith_trans la2 "*** Add File: " "*** " (by decide) ha22)
    have htake2 : takePlusLines (lx :: rest) = Except.error lx := by
      simp [takePlusLines, hx1, hx2]
    have haddEq2 : addOp (writeFileFS fs comps [pyDrop lc 1]) la2 (lx :: rest) =
        Except.error ("## Error\nAdd File " ++ quoted (pyStrip (pyDrop la2 14)) ++
          " expects lines starting with " ++ quoted "+" ++ ". Offending line: " ++ lx) := by
      simp only [addOp, hpa2, htake2]
    show patchLoop ((fuel + 1) + 1) fs (la :: lc :: la2 :: lx :: rest) summary results = _
    simp only [patchLoop, hna, ha1, ha2, haddEq, hna2, ha21, ha22, haddEq2]
    simp
  · simp only [writeFileFS, getFile]
    rw [setFile_fresh _ _ _ hfind, find?_append_none _ _ _ hfind]
    simp [List.find?_cons]

/-- C4 witness: after `Add a.txt` succeeds, a malformed directive, a missing
    end marker, and a bad prefix inside a second Add block each error with the
    file kept. -/
theorem grammar_error_no_rollback_witness :
    (pyRstripNl "*** Add File: a.txt" = "*** Add File: a.txt" ∧
      pyStrip "*** Add File: a.txt" ≠ "*** End Patch" ∧
      pyStartsWith "*** Add File: a.txt" "*** Add File: " = true ∧
      safeRelPath (pyStrip (pyDrop "*** Add File: a.txt" 14)) = Except.ok ["a.txt"] ∧
      pyStartsWith "+hi" "*** " = false ∧ pyStartsWith "+hi" "+" = true ∧
      fsExists ⟨[], []⟩ ["a.txt"] = false ∧
      pyStartsWith "*** Frobnicate: x" "*** " = true ∧
      pyStartsWith "*** Frobnicate: x" "*** Add File: " = false) ∧
    patchLoop (0 + 2) ⟨[], []⟩ ["*** Add File: a.txt", "+hi", "*** Frobnicate: x"] [] [] =
      (writeFileFS ⟨[], []⟩ ["a.txt"] [pyDrop "+hi" 1],
        Except.error ("## Error\nUnrecognized patch directive: " ++ "*** Frobnicate: x")) ∧
    patchLoop (0 + 2) ⟨[], []⟩ ["*** Add File: a.txt", "+hi"] [] [] =
      (writeFileFS ⟨[], []⟩ ["a.txt"] [pyDrop "+hi" 1], Except.error msgMustEnd) := by
  have h := grammar_error_no_rollback 0 ⟨[], []⟩ [] [] "*** Add File: a.txt" "+hi" []
    ["a.txt"] (by decide) (by decide) (by decide) (by decide) (by decide) (by decide)
    (by decide)
  exact ⟨⟨by decide, by decide, by decide, by decide, by decide, by decide, by decide,
      by decide, by decide⟩,
    h.1 "*** Frobnicate: x" (by decide) (by decide) (by decide) (by decide) (by decide)
      (by decide),
    h.2.1⟩

/-- C5: `execute_tool` is a total function into the `{model, display}`
    envelope — no exception crosses the dispatch boundary in the exceptions-as-
    `Except` model — and each failure mode (unknown tool, `TypeError` from
    argument binding, any other handler exception) yields the *same* envelope
    shape: a message starting with "## Error\n" as model text with its display
    truncation as display text, so callers cannot structurally distinguish
    dispatch failures from handler failures; a successful handler's report is
    returned unchanged. -/
theorem execute_tool_envelope {α : Type} (tools : String → Option (α → Except PyExc ToolReport))
    (toolName : String) (args : α) :
    (tools toolName = none →
      ∃ m, executeTool tools toolName args =
        ⟨"## Error\n" ++ m, displayTruncate ("## Error\n" ++ m) DISPLAY_MAX_LINES⟩) ∧
    (∀ f e, tools toolName = some f → f args = Except.error e →
      ∃ m, executeTool tools toolName args =
        ⟨"## Error\n" ++ m, displayTruncate ("## Error\n" ++ m) DISPLAY_MAX_LINES⟩) ∧
    (∀ f r, tools toolName = some f → f args = Except.ok r →
      executeTool tools toolName args = r) := by
  refine ⟨?_, ?_, ?_⟩
  · intro hnone
    refine ⟨"Tool `" ++ toolName ++ "` not found.", ?_⟩
    have hmsg : "## Error\nTool `" ++ toolName ++ "` not found." =
        "## Error\n" ++ ("Tool `" ++ toolName ++ "` not found.") := by
      rw [show ("## Error\nTool `" : String) = "## Error\n" ++ "Tool `" by decide]
      simp only [String.append_assoc]
    simp only [executeTool, hnone, errEnvelope]
    rw [hmsg]
  · intro f e hsome herr
    cases e with
    | typeError te =>
      refine ⟨"Invalid arguments for `" ++ toolName ++ "`: " ++ te, ?_⟩
      have hmsg : "## Error\nInvalid arguments for `" ++ toolName ++ "`: " ++ te =
          "## Error\n" ++ ("Invalid arguments for `" ++ toolName ++ "`: " ++ te) := by
        rw [show ("## Error\nInvalid arguments for `" : String) =
          "## Error\n" ++ "Invalid arguments for `" by decide]
        simp only [String.append_assoc]
      simp only [executeTool, hsome, herr, errEnvelope, excEnvelopeMsg]
      rw [hmsg]
    | otherExc en em =>
      refine ⟨en ++ ": " ++ em, ?_⟩
      have hmsg : "## Error\n" ++ en ++ ": " ++ em = "## Error\n" ++ (en ++ ": " ++ em) := by
        simp only [String.append_assoc]
      simp only [executeTool, hsome, herr, errEnvelope, excEnvelopeMsg]
      rw [hmsg]
  · intro f r hsome hok
    simp only [executeTool, hsome, hok]

/-- C5 witness: a lookup table with one always-raising handler; an unknown
    name and a raising handler both produce the uniform error envelope. -/
theorem execute_tool_envelope_witness :
    ((fun n : String => if n = "boom"
        then some (fun _ : Unit => (Except.error (PyExc.otherExc "ValueError" "bad") : Except PyExc ToolReport))
        else none) "ghost" = none ∧
      ∃ m, executeTool (fun n : String => if n = "boom"
          then some (fun _ : Unit => (Except.error (PyExc.otherExc "ValueError" "bad") : Except PyExc ToolReport))
          else none) "ghost" () =
        ⟨"## Error\n" ++ m, displayTruncate ("## Error\n" ++ m) DISPLAY_MAX_LINES⟩) ∧
    (∃ m, executeTool (fun n : String => if n = "boom"
        then some (fun _ : Unit => (Except.error (PyExc.otherExc "ValueError" "bad") : Except PyExc ToolReport))
        else none) "boom" () =
      ⟨"## Error\n" ++ m, displayTruncate ("## Error\n" ++ m) DISPLAY_MAX_LINES⟩) := by
  refine ⟨⟨rfl, ?_⟩, ?_⟩
  · exact (execute_tool_envelope _ "ghost" ()).1 rfl
  · exact (execute_tool_envelope _ "boom" ()).2.1
      (fun _ : Unit => (Except.error (PyExc.otherExc "ValueError" "bad") : Except PyExc ToolReport))
      (PyExc.otherExc "ValueError" "bad") rfl rfl

/-- Appending a closing fence line increments the fence-line count by one. -/
theorem fenceLineCount_append_fence (xs : List String) :
    fenceLineCount (xs ++ [tripleFence]) = fenceLineCount xs + 1 := by
  have hone : (fun L => pyStartsWith (pyStrip L) tripleFence) tripleFence = true := by decide
  simp [fenceLineCount, List.filter_append, List.filter_cons, hone]

/-- C9: whenever `_display_truncate` actually truncates (the input has more
    lines than the budget), the text before the hidden-lines marker contains
    an even number of fence-marker lines: if the cut landed after an odd
    number of fence delimiters a closing fence is appended just before the
    marker, otherwise the trimmed lines are kept as they are — so the
    truncated rendering never ends inside an unterminated fenced block. -/
theorem display_truncate_closes_fences (md : String) (n : Nat)
    (h : n < (pySplitlines md).length) :
    ∃ body : List String,
      displayTruncate md n = joinNl body ++ "\n\n... " ++
        toString ((pySplitlines md).length - n) ++ " lines hidden ...\n" ∧
      fenceLineCount body % 2 = 0 ∧
      (fenceLineCount ((pySplitlines md).take n) % 2 = 1 →
        body = (pySplitlines md).take n ++ [tripleFence]) ∧
      (fenceLineCount ((pySplitlines md).take n) % 2 = 0 →
        body = (pySplitlines md).take n) := by
  have hlen : ((pySplitlines md).take n).length = n := by
    rw [List.length_take]; omega
  simp only [displayTruncate]
  rw [if_neg (by omega), hlen]
  by_cases hp : fenceLineCount ((pySplitlines md).take n) % 2 = 1
  · refine ⟨(pySplitlines md).take n ++ [tripleFence], ?_, ?_, fun _ => rfl,
      fun hq => absurd hq (by omega)⟩
    · rw [if_pos hp]
    · rw [fenceLineCount_append_fence]
      omega
  · refine ⟨(pySplitlines md).take n, ?_, by omega, fun hq => absurd hq hp, fun _ => rfl⟩
    rw [if_neg hp]

/-- C9 witness: a three-line input with an open fence, truncated to two lines,
    gets the closing fence appended before the marker. -/
theorem display_truncate_closes_fences_witness :
    (2 < (pySplitlines "```py\nx\ny").length) ∧
    ∃ body : List String,
      displayTruncate "```py\nx\ny" 2 = joinNl body ++ "\n\n... " ++
        toString ((pySplitlines "```py\nx\ny").length - 2) ++ " lines hidden ...\n" ∧
      fenceLineCount body % 2 = 0 ∧
      (fenceLineCount ((pySplitlines "```py\nx\ny").take 2) % 2 = 1 →
        body = (pySplitlines "```py\nx\ny").take 2 ++ [tripleFence]) ∧
      (fenceLineCount ((pySplitlines "```py\nx\ny").take 2) % 2 = 0 →
        body = (pySplitlines "```py\nx\ny").take 2) :=
  ⟨by decide, display_truncate_closes_fences "```py\nx\ny" 2 (by decide)⟩

/-- Specification of the scan loop of `find_subseq`: starting at `s` with
    `cnt` candidate positions, a hit is the first occurrence in the scanned
    window and a miss means the window holds no occurrence. -/
theorem findSubseqGo_spec (hay needle : List String) :
    ∀ (cnt s : Nat),
      (∀ r, findSubseqGo hay needle s cnt = some r →
        s ≤ r ∧ r < s + cnt ∧ occursAt hay needle r ∧
          ∀ t, s ≤ t → t < r → ¬occursAt hay needle t) ∧
      (findSubseqGo hay needle s cnt = none →
        ∀ t, s ≤ t → t < s + cnt → ¬occursAt hay needle t) := by
  intro cnt
  induction cnt with
  | zero =>
    intro s
    constructor
    · intro r h
      simp [findSubseqGo] at h
    · intro _ t h1 h2
      omega
  | succ k ih =>
    intro s
    constructor
    · intro r h
      simp only [findSubseqGo] at h
      by_cases hocc : occursAt hay needle s
      · rw [if_pos hocc] at h
        obtain rfl : s = r := by simpa using h
        exact ⟨Nat.le_refl s, by omega, hocc, fun t h1 h2 => by omega⟩
      · rw [if_neg hocc] at h
        obtain ⟨h1, h2, h3, h4⟩ := (ih (s + 1)).1 r h
        refine ⟨by omega, by omega, h3, fun t ht1 ht2 => ?_⟩
        rcases Nat.eq_or_lt_of_le ht1 with rfl | hlt
        · exact hocc
        · exact h4 t hlt ht2
    · intro h t h1 h2
      simp only [findSubseqGo] at h
      by_cases hocc : occursAt hay needle s
      · rw [if_pos hocc] at h
        simp at h
      · rw [if_neg hocc] at h
        rcases Nat.eq_or_lt_of_le h1 with rfl | hlt
        · exact hocc
        · exact (ih (s + 1)).2 h t hlt (by omega)

/-- A hit of `find_subseq` is the first occurrence of the needle. -/
theorem findSubseq_some_spec (hay needle : List String) (s : Nat)
    (h : findSubseq hay needle = some s) :
    occursAt hay needle s ∧ ∀ t, t < s → ¬occursAt hay needle t := by
  by_cases hn : needle = []
  · subst hn
    simp [findSubseq] at h
    subst h
    exact ⟨by simp [occursAt], fun t ht => by omega⟩
  · simp only [findSubseq, if_neg hn] at h
    obtain ⟨h1, h2, h3, h4⟩ := (findSubseqGo_spec hay needle (hay.length + 1 - needle.length) 0).1 s h
    exact ⟨h3, fun t ht => h4 t (by omega) ht⟩

/-- A miss of `find_subseq` means the needle occurs nowhere. -/
theorem findSubseq_none_spec (hay needle : List String)
    (h : findSubseq hay needle = none) : ∀ s, ¬occursAt hay needle s := by
  intro s hocc
  by_cases hn : needle = []
  · subst hn
    simp [findSubseq] at h
  · simp only [findSubseq, if_neg hn] at h
    have hnone := (findSubseqGo_spec hay needle (hay.length + 1 - needle.length) 0).2 h
    have hlen : needle.length ≤ hay.length - s := by
      have hc := congrArg List.length hocc
      rw [List.length_take, List.length_drop] at hc
      omega
    have hpos : 0 < needle.length := List.length_pos.mpr hn
    exact hnone s (by omega) (by omega) hocc

/-- `find_subseq` returns exactly the first occurrence. -/
theorem findSubseq_eq_of_min (hay needle : List String) (s : Nat)
    (hocc : occursAt hay needle s) (hmin : ∀ t, t < s → ¬occursAt hay needle t) :
    findSubseq hay needle = some s := by
  cases hf : findSubseq hay needle with
  | none => exact absurd hocc (findSubseq_none_spec hay needle hf s)
  | some r =>
    obtain ⟨hr, hrmin⟩ := findSubseq_some_spec hay needle r hf
    have hrs : r = s := by
      rcases Nat.lt_trichotomy r s with hlt | heq | hgt
      · exact absurd hr (hmin r hlt)
      · exact heq
      · exact absurd hocc (hrmin s hgt)
    rw [hrs]

/-- `find_subseq` misses exactly when the needle occurs nowhere. -/
theorem findSubseq_eq_none (hay needle : List String)
    (h : ∀ t, ¬occursAt hay needle t) : findSubseq hay needle = none := by
  cases hf : findSubseq hay needle with
  | none => rfl
  | some r => exact absurd (findSubseq_some_spec hay needle r hf).1 (h r)

/-- The interleaved Update-hunk loop equals parsing all hunks first and then
    folding `hunkStepSS` over them in document order from the given state:
    the source applies each hunk to the buffer produced by its predecessors. -/
theorem updateLoopSS_fold (rel : String) :
    ∀ (fuel : Nat) (docLines : List String) (st : List String × List String × Bool),
      updateLoopSS rel fuel docLines st =
        match parseHunksSS rel fuel docLines with
        | Except.error e => Except.error e
        | Except.ok (hs, rest) =>
          Except.ok ((hs.foldl hunkStepSS st).1, (hs.foldl hunkStepSS st).2.1,
            (hs.foldl hunkStepSS st).2.2, rest) := by
  intro fuel
  induction fuel with
  | zero => intro doc st; rfl
  | succ k ih =>
    intro doc st
    cases doc with
    | nil => rfl
    | cons l rest =>
      simp only [updateLoopSS, parseHunksSS]
      by_cases h1 : isEndLine l = true ∨ (matchHeader l).isSome = true
      · rw [if_pos h1, if_pos h1]
        rfl
      · rw [if_neg h1, if_neg h1]
        by_cases h2 : pyStartsWith l "@@" = true
        · rw [if_neg (by simp [h2]), if_neg (by simp [h2])]
          cases hp : parseHunkBodySS rel rest with
          | error e => rfl
          | ok pr =>
            obtain ⟨b, a, rest2⟩ := pr
            simp only [ih]
            cases parseHunksSS rel k rest2 with
            | error e => rfl
            | ok hr =>
              obtain ⟨hs, r⟩ := hr
              rfl
        · rw [if_pos h2, if_pos h2]
          by_cases h3 : pyStrip l = ""
          · rw [if_pos h3, if_pos h3]
            exact ih rest st
          · rw [if_neg h3, if_neg h3]

/-- C3: within an Update of the forgiving engine (src/src/tools.py):
    (1, 2) `find_subseq` returns exactly the first index where the before
    sequence occurs as a contiguous block under per-line equality, and `none`
    exactly when there is no occurrence; (3) a hunk whose before sequence has
    an exact occurrence is spliced at the first such index; (4) if there is no
    exact occurrence the search is retried with both sides right-stripped and
    the hunk is spliced at the first relaxed match; (5) with no match either
    way the hunk is skipped; (6) the document loop equals parsing the hunks in
    document order and folding their application over the progressively
    mutated buffer, so a later hunk is matched against the already-patched
    state. -/
theorem update_hunks_matching (rel : String) :
    (∀ hay needle s, findSubseq hay needle = some s →
      occursAt hay needle s ∧ ∀ t, t < s → ¬occursAt hay needle t) ∧
    (∀ hay needle, findSubseq hay needle = none → ∀ s, ¬occursAt hay needle s) ∧
    (∀ file before after s, occursAt file before s →
      (∀ t, t < s → ¬occursAt file before t) →
      applyOneHunk file before after =
        some (file.take s ++ after ++ file.drop (s + before.length), s)) ∧
    (∀ file before after s, (∀ t, ¬occursAt file before t) →
      occursAt (file.map pyRstrip) (before.map pyRstrip) s →
      (∀ t, t < s → ¬occursAt (file.map pyRstrip) (before.map pyRstrip) t) →
      applyOneHunk file before after =
        some (file.take s ++ after ++ file.drop (s + before.length), s)) ∧
    (∀ file before after, (∀ t, ¬occursAt file before t) →
      (∀ t, ¬occursAt (file.map pyRstrip) (before.map pyRstrip) t) →
      applyOneHunk file before after = none) ∧
    (∀ fuel docLines st, updateLoopSS rel fuel docLines st =
      match parseHunksSS rel fuel docLines with
      | Except.error e => Except.error e
      | Except.ok (hs, rest) =>
        Except.ok ((hs.foldl hunkStepSS st).1, (hs.foldl hunkStepSS st).2.1,
          (hs.foldl hunkStepSS st).2.2, rest)) := by
  refine ⟨findSubseq_some_spec, findSubseq_none_spec, ?_, ?_, ?_, updateLoopSS_fold rel⟩
  · intro file before after s hocc hmin
    simp only [applyOneHunk, findSubseq_eq_of_min file before s hocc hmin]
  · intro file before after s hnone hocc hmin
    simp only [applyOneHunk, findSubseq_eq_none file before hnone,
      findSubseq_eq_of_min _ _ s hocc hmin]
  · intro file before after hnone hnone2
    simp only [applyOneHunk, findSubseq_eq_none file before hnone,
      findSubseq_eq_none _ _ hnone2]

/-- C3 witness: the before sequence ["b"] occurs first at index 1 of
    ["a", "b", "c"], and the hunk replaces exactly that window; a
    trailing-space drift ("b " in the file) is caught by the relaxed retry. -/
theorem update_hunks_matching_witness :
    (occursAt ["a", "b", "c"] ["b"] 1 ∧ (∀ t, t < 1 → ¬occursAt ["a", "b", "c"] ["b"] t)) ∧
    applyOneHunk ["a", "b", "c"] ["b"] ["x", "y"] = some (["a", "x", "y", "c"], 1) ∧
    applyOneHunk ["a", "b "] ["b"] ["x"] = some (["a", "x"], 1) := by
  refine ⟨⟨by decide, by decide⟩, ?_, ?_⟩
  · have h := (update_hunks_matching "f").2.2.1 ["a", "b", "c"] ["b"] ["x", "y"] 1
      (by decide) (by decide)
    rw [h]
    decide
  · have h := (update_hunks_matching "f").2.2.2.1 ["a", "b "] ["b"] ["x"] 1
      (fun t => by
        have hn := findSubseq_none_spec ["a", "b "] ["b"] (by decide)
        exact hn t)
      (by decide) (by decide)
    rw [h]
    decide
